import Mathlib

/-!
Shallow embedding of `src/src/renderers/shared/fiber/ReactFiberScheduler.js`,
the fiber scheduler factory of this repository.

Fibers and fiber roots live in arenas (`List Fiber`, `List FiberRoot`) and the
JavaScript object references (`return`, `child`, `sibling`, `alternate`,
`nextEffect`, `nextScheduledRoot`, ...) are arena indices.  JavaScript
exceptions are modelled with `Except`: a stateful function returns
`SchedulerState × Except JsError α`, and mutations performed before a throw
persist, exactly as in JavaScript.  Loops that chase mutable pointers take
explicit fuel; theorems about them carry well-formedness hypotheses that bound
the chains, and concrete executions use generous fuel.

External collaborators (the host config and the reconciliation modules
`ReactFiberBeginWork`, `ReactFiberCompleteWork`, `ReactFiberCommitWork`,
`ReactFiberErrorBoundary`) are parameters of the embedding, collected in a
`Collaborators` record; the scheduler additionally records every call it makes
to a host-facing collaborator in `hostLog`, so call sequences are observable.
-/

deriving instance DecidableEq for Except

namespace ReactFiberScheduler

/-- Modelled from the spec: the ReactPriorityLevel module required by the
scheduler is not under src/.  Spec section 3: a priority level is one of
NoWork, SynchronousPriority, AnimationPriority, LowPriority, ordered
Sync < Animation < Low < NoWork, lower numeric value meaning higher urgency,
NoWork sorting as the maximum, and the numbering admitting further levels
between Animation and Low. -/
inductive PriorityLevel where
  | SynchronousPriority
  | AnimationPriority
  | LowPriority
  | NoWork
deriving DecidableEq, Repr, Inhabited, Fintype

/-- Modelled from the spec: the numeric value of a priority level
(Sync < Animation < Low, a gap admitting levels between Animation and Low,
NoWork as the maximum). -/
def PriorityLevel.toNat : PriorityLevel → Nat
  | .SynchronousPriority => 1
  | .AnimationPriority => 2
  | .LowPriority => 4
  | .NoWork => 6

instance : LE PriorityLevel := ⟨fun a b => a.toNat ≤ b.toNat⟩

instance : LT PriorityLevel := ⟨fun a b => a.toNat < b.toNat⟩

instance (a b : PriorityLevel) : Decidable (a ≤ b) :=
  inferInstanceAs (Decidable (a.toNat ≤ b.toNat))

instance (a b : PriorityLevel) : Decidable (a < b) :=
  inferInstanceAs (Decidable (a.toNat < b.toNat))

/-- The more urgent of two priority levels (NoWork is the maximum, so `min`
never deprioritizes). -/
def minPriority (a b : PriorityLevel) : PriorityLevel :=
  if a ≤ b then a else b

/-- Modelled from the spec: ReactTypeOfWork is not under src/; the scheduler
only distinguishes the HostContainer tag (spec section 3: f.return is null iff
f.tag == HostContainer). -/
inductive TypeOfWork where
  | HostContainer
  | OtherWork
deriving DecidableEq, Repr, Inhabited

/-- Modelled from the spec: ReactTypeOfSideEffect is not under src/.  Spec
section 3: effectTag is a bitset over Placement, Update, Deletion, Callback;
the combined names imported by the scheduler are bitwise unions. -/
def NoEffect : Nat := 0

/-- Modelled from the spec: the Placement bit of the effectTag bitset. -/
def Placement : Nat := 1

/-- Modelled from the spec: the Update bit of the effectTag bitset. -/
def Update : Nat := 2

/-- Modelled from the spec: Placement and Update bits. -/
def PlacementAndUpdate : Nat := 3

/-- Modelled from the spec: the Deletion bit of the effectTag bitset. -/
def Deletion : Nat := 4

/-- Modelled from the spec: the Callback bit of the effectTag bitset. -/
def Callback : Nat := 8

/-- Modelled from the spec: Placement and Callback bits. -/
def PlacementAndCallback : Nat := 9

/-- Modelled from the spec: Update and Callback bits. -/
def UpdateAndCallback : Nat := 10

/-- Modelled from the spec: Placement, Update and Callback bits. -/
def PlacementAndUpdateAndCallback : Nat := 11

/-- Modelled from the spec: Deletion and Callback bits. -/
def DeletionAndCallback : Nat := 12

/-- One fiber record (spec section 3); object references are arena indices.
The JavaScript field `return` is spelled `ret` (`return` is a Lean keyword).
`pendingProps` and `updateQueue` only matter to the scheduler as present or
cleared, so they are Booleans. -/
structure Fiber where
  tag : TypeOfWork := .OtherWork
  pendingWorkPriority : PriorityLevel := .NoWork
  effectTag : Nat := NoEffect
  ret : Option Nat := none
  child : Option Nat := none
  sibling : Option Nat := none
  alternate : Option Nat := none
  progressedChild : Option Nat := none
  pendingProps : Bool := false
  updateQueue : Bool := false
  firstEffect : Option Nat := none
  lastEffect : Option Nat := none
  nextEffect : Option Nat := none
  stateNode : Option Nat := none
deriving DecidableEq, Repr, Inhabited

/-- A fiber root record (spec section 3): the host container descriptor.
`containerInfo` is opaque to the scheduler and omitted. -/
structure FiberRoot where
  current : Nat := 0
  isScheduled : Bool := false
  nextScheduledRoot : Option Nat := none
deriving DecidableEq, Repr, Inhabited

/-- Errors travelling through the embedded JavaScript exception mechanism:
the scheduler's own fatal errors, plus opaque user errors from collaborators,
plus fuel exhaustion of the embedding (unreachable with enough fuel). -/
inductive JsError where
  | cannotCommitSameTree
  | invalidRoot
  | couldNotFindRootFromBoundary
  | noDeadline
  | typeErr
  | user (n : Nat)
  | fuelExhausted
deriving DecidableEq, Repr, Inhabited

/-- A trapped error (spec section 3): the nearest error boundary (none if no
ancestor boundary exists) together with the original error. -/
structure TrappedError where
  boundary : Option Nat := none
  error : JsError := .user 0
deriving DecidableEq, Repr, Inhabited

/-- Calls delivered to host-facing collaborators, recorded in order so that
the commit passes and the host callback registrations are observable. -/
inductive HostEvent where
  | insertionCall (fiber : Nat)
  | workCall (current : Option Nat) (fiber : Nat)
  | deletionCall (fiber : Nat)
  | lifeCyclesCall (current : Option Nat) (fiber : Nat)
  | animationCallbackScheduled
  | deferredCallbackScheduled
deriving DecidableEq, Repr, Inhabited

/-- The module-scoped mutable state of one scheduler instance (the `let`
variables of the factory closure), together with the two arenas and the host
call log. -/
structure SchedulerState where
  fibers : List Fiber := []
  roots : List FiberRoot := []
  priorityContext : PriorityLevel := .LowPriority
  shouldBatchUpdates : Bool := false
  nextUnitOfWork : Option Nat := none
  nextPriorityLevel : PriorityLevel := .NoWork
  nextScheduledRoot : Option Nat := none
  lastScheduledRoot : Option Nat := none
  isAnimationCallbackScheduled : Bool := false
  isDeferredCallbackScheduled : Bool := false
  currentOwner : Option Nat := none
  hostLog : List HostEvent := []
deriving DecidableEq, Repr, Inhabited

/-- Read a fiber from the arena (out-of-range reads yield the default record,
matching an undefined dereference that the claims never exercise). -/
def getFiber (s : SchedulerState) (i : Nat) : Fiber :=
  s.fibers.getD i default

/-- Write a fiber back to the arena (out-of-range writes are no-ops). -/
def setFiber (i : Nat) (v : Fiber) (s : SchedulerState) : SchedulerState :=
  {s with fibers := s.fibers.set i v}

/-- Read a fiber root from the arena. -/
def getRoot (s : SchedulerState) (i : Nat) : FiberRoot :=
  s.roots.getD i default

/-- Write a fiber root back to the arena. -/
def setRoot (i : Nat) (v : FiberRoot) (s : SchedulerState) : SchedulerState :=
  {s with roots := s.roots.set i v}

/-- Append a host event to the log. -/
def logEvent (e : HostEvent) (s : SchedulerState) : SchedulerState :=
  {s with hostLog := s.hostLog ++ [e]}

/-- The pending work priority of a root's current fiber
(`root.current.pendingWorkPriority`). -/
def priOf (s : SchedulerState) (r : Nat) : PriorityLevel :=
  (getFiber s ((getRoot s r).current)).pendingWorkPriority

/-- The registry chain reached by following `nextScheduledRoot` links from a
starting pointer; `none` when the fuel runs out before the chain ends. -/
def chainFrom (s : SchedulerState) : Nat → Option Nat → Option (List Nat)
  | _, none => some []
  | 0, some _ => none
  | fuel+1, some r => (chainFrom s fuel ((getRoot s r).nextScheduledRoot)).map (fun l => r :: l)

/-- Modelled from the spec: `cloneFiber` comes from the ReactFiber module,
which is not under src/.  Spec 6.2: `cloneFiber(fiber, priority)` allocates or
reuses the alternate; spec 4.2: the clone is a work-in-progress copy of the
fiber with `pendingWorkPriority` set to the requested priority, paired with
the original through the `alternate` edges. -/
def cloneFiber (f : Nat) (priority : PriorityLevel) (s : SchedulerState) :
    SchedulerState × Nat :=
  let fib := getFiber s f
  match fib.alternate with
  | some alt =>
    let s := setFiber alt { getFiber s alt with
      tag := fib.tag, ret := fib.ret, child := fib.child, sibling := fib.sibling,
      stateNode := fib.stateNode, pendingWorkPriority := priority,
      alternate := some f } s
    (s, alt)
  | none =>
    let newId := s.fibers.length
    let clone : Fiber := {
      tag := fib.tag, ret := fib.ret, child := fib.child, sibling := fib.sibling,
      stateNode := fib.stateNode, pendingWorkPriority := priority,
      alternate := some f }
    let s := {s with fibers := s.fibers ++ [clone]}
    let s := setFiber f { getFiber s f with alternate := some newId } s
    (s, newId)

/-- The first loop of `findNextUnitOfWork` (lines 91-108): clear out leading
roots with no more work on them.  The Boolean is true when the loop returned
null early because it cleared all the roots. -/
def unscheduleLoop : Nat → SchedulerState → SchedulerState × Bool
  | 0, s => (s, false)
  | fuel+1, s =>
    match s.nextScheduledRoot with
    | none => (s, false)
    | some r =>
      if (getFiber s ((getRoot s r).current)).pendingWorkPriority = PriorityLevel.NoWork then
        let s1 := setRoot r {getRoot s r with isScheduled := false} s
        let next := (getRoot s1 r).nextScheduledRoot
        let s2 := setRoot r {getRoot s1 r with nextScheduledRoot := none} s1
        if s2.nextScheduledRoot = s2.lastScheduledRoot then
          let s3 := {s2 with
            nextScheduledRoot := none, lastScheduledRoot := none,
            nextPriorityLevel := PriorityLevel.NoWork}
          (s3, true)
        else
          unscheduleLoop fuel {s2 with nextScheduledRoot := next}
      else (s, false)

/-- The scan loop of `findNextUnitOfWork` (lines 109-121): find the root with
the highest priority (smallest value other than NoWork), earliest root
winning ties because replacement requires a strictly smaller value. -/
def scanRoots (s : SchedulerState) :
    Nat → Option Nat → Option Nat → PriorityLevel → Option Nat × PriorityLevel
  | 0, _, hr, hl => (hr, hl)
  | _+1, none, hr, hl => (hr, hl)
  | fuel+1, some r, hr, hl =>
    let pri := (getFiber s ((getRoot s r).current)).pendingWorkPriority
    let acc :=
      if pri ≠ PriorityLevel.NoWork ∧ (hl = PriorityLevel.NoWork ∨ pri < hl) then
        (some r, pri)
      else (hr, hl)
    scanRoots s fuel ((getRoot s r).nextScheduledRoot) acc.1 acc.2

/-- `findNextUnitOfWork` (lines 89-132): clear out empty roots, pick the
highest-priority root, set `nextPriorityLevel` and return a clone of its
current fiber; null (with `nextPriorityLevel = NoWork`) when there is no work. -/
def findNextUnitOfWork (s : SchedulerState) : SchedulerState × Option Nat :=
  let gc := unscheduleLoop (s.roots.length + 1) s
  if gc.2 then (gc.1, none) else
  let s := gc.1
  let scan := scanRoots s (s.roots.length + 1) s.nextScheduledRoot none PriorityLevel.NoWork
  match scan.1 with
  | some r =>
    let s := {s with nextPriorityLevel := scan.2}
    let out := cloneFiber ((getRoot s r).current) scan.2 s
    (out.1, some out.2)
  | none => ({s with nextPriorityLevel := PriorityLevel.NoWork}, none)

/-- The child walk of `resetWorkPriority` (lines 243-252): bubble up the most
urgent remaining priority among the progressed children. -/
def bubbleChildPriority (s : SchedulerState) :
    Nat → Option Nat → PriorityLevel → PriorityLevel
  | 0, _, np => np
  | _+1, none, np => np
  | fuel+1, some c, np =>
    let cp := (getFiber s c).pendingWorkPriority
    let np :=
      if cp ≠ PriorityLevel.NoWork ∧ (np = PriorityLevel.NoWork ∨ cp < np) then cp
      else np
    bubbleChildPriority s fuel ((getFiber s c).sibling) np

/-- `resetWorkPriority` (lines 238-254). -/
def resetWorkPriority (workInProgress : Nat) (s : SchedulerState) : SchedulerState :=
  let np := bubbleChildPriority s (s.fibers.length + 1)
    ((getFiber s workInProgress).progressedChild) PriorityLevel.NoWork
  setFiber workInProgress {getFiber s workInProgress with pendingWorkPriority := np} s

/-- `scheduleDeferredWork` (lines 400-431).  The host callback registration
`scheduleDeferredCallback(performDeferredWork)` is recorded as a host event. -/
def scheduleDeferredWork (root : Nat) (priority : PriorityLevel) (s : SchedulerState) :
    SchedulerState :=
  let s := if priority ≤ s.nextPriorityLevel then {s with nextUnitOfWork := none} else s
  let cur := (getRoot s root).current
  let s :=
    if (getFiber s cur).pendingWorkPriority = PriorityLevel.NoWork ∨
        priority ≤ (getFiber s cur).pendingWorkPriority then
      setFiber cur {getFiber s cur with pendingWorkPriority := priority} s
    else s
  let s :=
    if (getRoot s root).isScheduled then s
    else
      let s := setRoot root {getRoot s root with isScheduled := true} s
      match s.lastScheduledRoot with
      | some last =>
        let s := setRoot last {getRoot s last with nextScheduledRoot := some root} s
        {s with lastScheduledRoot := some root}
      | none => {s with nextScheduledRoot := some root, lastScheduledRoot := some root}
  if s.isDeferredCallbackScheduled then s
  else logEvent .deferredCallbackScheduled {s with isDeferredCallbackScheduled := true}

/-- `scheduleAnimationWork` (lines 458-482).  The host callback registration
`scheduleAnimationCallback(performAnimationWork)` is recorded as a host event. -/
def scheduleAnimationWork (root : Nat) (priorityLevel : PriorityLevel) (s : SchedulerState) :
    SchedulerState :=
  let cur := (getRoot s root).current
  let s :=
    if (getFiber s cur).pendingWorkPriority = PriorityLevel.NoWork ∨
        priorityLevel ≤ (getFiber s cur).pendingWorkPriority then
      setFiber cur {getFiber s cur with pendingWorkPriority := priorityLevel} s
    else s
  let s :=
    if (getRoot s root).isScheduled then s
    else
      let s := setRoot root {getRoot s root with isScheduled := true} s
      match s.lastScheduledRoot with
      | some last =>
        let s := setRoot last {getRoot s last with nextScheduledRoot := some root} s
        {s with lastScheduledRoot := some root}
      | none => {s with nextScheduledRoot := some root, lastScheduledRoot := some root}
  if s.isAnimationCallbackScheduled then s
  else logEvent .animationCallbackScheduled {s with isAnimationCallbackScheduled := true}

/-- `scheduleErrorBoundaryWork` (lines 484-508): walk from the boundary to the
root, setting `pendingWorkPriority` (and the alternate's) unconditionally on
each fiber, and return the root; fatal if the top is not a HostContainer. -/
def scheduleErrorBoundaryWorkGo :
    Nat → Nat → PriorityLevel → SchedulerState → SchedulerState × Except JsError Nat
  | 0, _, _, s => (s, .error .fuelExhausted)
  | fuel+1, fiber, priority, s =>
    let s := setFiber fiber {getFiber s fiber with pendingWorkPriority := priority} s
    let s :=
      match (getFiber s fiber).alternate with
      | some alt => setFiber alt {getFiber s alt with pendingWorkPriority := priority} s
      | none => s
    match (getFiber s fiber).ret with
    | none =>
      if (getFiber s fiber).tag = TypeOfWork.HostContainer then
        match (getFiber s fiber).stateNode with
        | some root => (s, .ok root)
        | none => (s, .error .typeErr)
      else (s, .error .invalidRoot)
    | some parent => scheduleErrorBoundaryWorkGo fuel parent priority s

/-- `performWithPriority` (lines 713-721): scoped priority context, restored
in a `finally` on both normal and error exits. -/
def performWithPriority
    (priorityLevel : PriorityLevel)
    (fn : SchedulerState → SchedulerState × Except JsError Unit)
    (s : SchedulerState) : SchedulerState × Except JsError Unit :=
  let previousPriorityContext := s.priorityContext
  let out := fn {s with priorityContext := priorityLevel}
  ({out.1 with priorityContext := previousPriorityContext}, out.2)

/-- `syncUpdates` (lines 737-745): run `fn` under SynchronousPriority, with
the previous priority context restored in a `finally` on both exits. -/
def syncUpdates {α : Type}
    (fn : SchedulerState → SchedulerState × Except JsError α)
    (s : SchedulerState) : SchedulerState × Except JsError α :=
  let previousPriorityContext := s.priorityContext
  let out := fn {s with priorityContext := PriorityLevel.SynchronousPriority}
  ({out.1 with priorityContext := previousPriorityContext}, out.2)

/-- The external collaborators consumed by the scheduler factory: the
reconciliation functions from ReactFiberBeginWork / ReactFiberCompleteWork /
ReactFiberCommitWork and the error-boundary helpers from
ReactFiberErrorBoundary.  None of them are under src/, so they are opaque
parameters; those that run user code may mutate the state and throw. -/
structure Collaborators where
  beginWork : Option Nat → Nat → PriorityLevel → SchedulerState →
    SchedulerState × Except JsError (Option Nat)
  completeWork : Option Nat → Nat → SchedulerState →
    SchedulerState × Except JsError (Option Nat)
  commitInsertion : Nat → SchedulerState → SchedulerState
  commitWork : Option Nat → Nat → SchedulerState → SchedulerState
  commitDeletion : Nat → SchedulerState → SchedulerState × Option (List TrappedError)
  commitLifeCycles : Option Nat → Nat → SchedulerState →
    SchedulerState × Option TrappedError
  trapError : Nat → JsError → TrappedError
  acknowledgeErrorInBoundary : Nat → JsError → SchedulerState →
    SchedulerState × Except JsError Unit

/-- Trivial collaborators: reconciliation spawns no work, commit operations
do not touch the state and trap no errors, and `trapError` finds no boundary. -/
def trivialCollaborators : Collaborators where
  beginWork := fun _ _ _ s => (s, .ok none)
  completeWork := fun _ _ s => (s, .ok none)
  commitInsertion := fun _ s => s
  commitWork := fun _ _ s => s
  commitDeletion := fun _ s => (s, none)
  commitLifeCycles := fun _ _ s => (s, none)
  trapError := fun _ e => {boundary := none, error := e}
  acknowledgeErrorInBoundary := fun _ _ s => (s, .ok ())

/-- The first forEach of a `handleErrors` iteration (lines 612-633): record
the first uncaught error (boundary-less errors, first wins), acknowledge each
distinct boundary, and trap acknowledgement failures for the next iteration.
`bs` is the insertion-ordered set of affected boundaries. -/
def ackPhase (cfg : Collaborators) :
    List TrappedError → SchedulerState → List Nat → Option (List TrappedError) →
    Option JsError →
    SchedulerState × List Nat × Option (List TrappedError) × Option JsError
  | [], s, bs, nextT, firstU => (s, bs, nextT, firstU)
  | te :: rest, s, bs, nextT, firstU =>
    match te.boundary with
    | none => ackPhase cfg rest s bs nextT (firstU.orElse (fun _ => some te.error))
    | some boundary =>
      if boundary ∈ bs then ackPhase cfg rest s bs nextT firstU
      else
        let out := cfg.acknowledgeErrorInBoundary boundary te.error s
        match out.2 with
        | .ok _ => ackPhase cfg rest out.1 (bs ++ [boundary]) nextT firstU
        | .error nextError =>
          ackPhase cfg rest out.1 bs
            (some (nextT.getD [] ++ [cfg.trapError boundary nextError])) firstU

/-- The time heuristic of the deferred work loop (line 57). -/
def timeHeuristicForUnitOfWork : Nat := 1

/-- The mutation pass of `commitAllWork` (lines 145-194): walk the effect
list, dispatching on the exact `effectTag` value as the source switch does,
collecting trapped deletion errors.  Every collaborator call is logged. -/
def commitPassOne (cfg : Collaborators) :
    Nat → Option Nat → Bool → Option (List TrappedError) → SchedulerState →
    SchedulerState × Option (List TrappedError)
  | 0, _, _, acc, s => (s, acc)
  | _+1, none, _, acc, s => (s, acc)
  | fuel+1, some f, ignoreUnmountingErrors, acc, s =>
    let tag := (getFiber s f).effectTag
    let step :=
      if tag = Placement ∨ tag = PlacementAndCallback then
        let s := logEvent (.insertionCall f) s
        let s := cfg.commitInsertion f s
        (setFiber f {getFiber s f with effectTag := NoEffect} s, acc)
      else if tag = PlacementAndUpdate ∨ tag = PlacementAndUpdateAndCallback then
        let s := logEvent (.insertionCall f) s
        let s := cfg.commitInsertion f s
        let s := setFiber f {getFiber s f with effectTag := Update} s
        let current := (getFiber s f).alternate
        let s := logEvent (.workCall current f) s
        (cfg.commitWork current f s, acc)
      else if tag = Update ∨ tag = UpdateAndCallback then
        let current := (getFiber s f).alternate
        let s := logEvent (.workCall current f) s
        (cfg.commitWork current f s, acc)
      else if tag = Deletion ∨ tag = DeletionAndCallback then
        let s := logEvent (.deletionCall f) s
        let out := cfg.commitDeletion f s
        match out.2 with
        | some trappedErrors =>
          if ignoreUnmountingErrors then (out.1, acc)
          else (out.1, some (acc.getD [] ++ trappedErrors))
        | none => (out.1, acc)
      else (s, acc)
    commitPassOne cfg fuel ((getFiber step.1 f).nextEffect) ignoreUnmountingErrors step.2 step.1

/-- The lifecycle pass of `commitAllWork` (lines 199-218): call
`commitLifeCycles` for fibers whose tag intersects Update or Callback,
collect trapped errors, and unlink `nextEffect` while traversing. -/
def commitPassTwo (cfg : Collaborators) :
    Nat → Option Nat → Option (List TrappedError) → SchedulerState →
    SchedulerState × Option (List TrappedError)
  | 0, _, acc, s => (s, acc)
  | _+1, none, acc, s => (s, acc)
  | fuel+1, some f, acc, s =>
    let step :=
      if (getFiber s f).effectTag &&& (Update ||| Callback) ≠ 0 then
        let current := (getFiber s f).alternate
        let s := logEvent (.lifeCyclesCall current f) s
        let out := cfg.commitLifeCycles current f s
        match out.2 with
        | some trappedError => (out.1, some (acc.getD [] ++ [trappedError]))
        | none => (out.1, acc)
      else (s, acc)
    let next := (getFiber step.1 f).nextEffect
    let s := setFiber f {getFiber step.1 f with nextEffect := none} step.1
    commitPassTwo cfg fuel next step.2 s

mutual

/-- `performUnitOfWork` (lines 342-372): begin work, complete it when no
child is spawned, then clear the current-owner slot.  Exceptions from the
collaborators propagate without clearing the owner, as in the source. -/
def performUnitOfWork (cfg : Collaborators) (fuel : Nat) (workInProgress : Nat)
    (ignoreUnmountingErrors : Bool) (s : SchedulerState) :
    SchedulerState × Except JsError (Option Nat) :=
  match fuel with
  | 0 => (s, .error .fuelExhausted)
  | fuel+1 =>
    let current := (getFiber s workInProgress).alternate
    let out := cfg.beginWork current workInProgress s.nextPriorityLevel s
    match out.2 with
    | .error e => (out.1, .error e)
    | .ok (some next) => ({out.1 with currentOwner := none}, .ok (some next))
    | .ok none =>
      let out2 := completeUnitOfWork cfg fuel workInProgress ignoreUnmountingErrors out.1
      match out2.2 with
      | .error e => (out2.1, .error e)
      | .ok next => ({out2.1 with currentOwner := none}, .ok next)

/-- `completeUnitOfWork` (lines 256-340): complete the fiber, bubble its
priority, splice its effect list into the parent (appending the fiber itself
after its children when it has an effect), then move to the sibling, the
parent, or — at the root — assert the tree is new, replace `root.current`,
commit, and look for the next unit of work. -/
def completeUnitOfWork (cfg : Collaborators) (fuel : Nat) (workInProgress : Nat)
    (ignoreUnmountingErrors : Bool) (s : SchedulerState) :
    SchedulerState × Except JsError (Option Nat) :=
  match fuel with
  | 0 => (s, .error .fuelExhausted)
  | fuel+1 =>
    let current := (getFiber s workInProgress).alternate
    let out := cfg.completeWork current workInProgress s
    match out.2 with
    | .error e => (out.1, .error e)
    | .ok next =>
      let s := resetWorkPriority workInProgress out.1
      let s := setFiber workInProgress
        {getFiber s workInProgress with pendingProps := false, updateQueue := false} s
      let returnFiber := (getFiber s workInProgress).ret
      let s :=
        match returnFiber with
        | some rf =>
          let s :=
            if (getFiber s rf).firstEffect = none then
              setFiber rf
                {getFiber s rf with firstEffect := (getFiber s workInProgress).firstEffect} s
            else s
          let s :=
            match (getFiber s workInProgress).lastEffect with
            | some wle =>
              let s :=
                match (getFiber s rf).lastEffect with
                | some rle =>
                  setFiber rle
                    {getFiber s rle with nextEffect := (getFiber s workInProgress).firstEffect} s
                | none => s
              setFiber rf {getFiber s rf with lastEffect := some wle} s
            | none => s
          if (getFiber s workInProgress).effectTag ≠ NoEffect then
            let s :=
              match (getFiber s rf).lastEffect with
              | some rle => setFiber rle {getFiber s rle with nextEffect := some workInProgress} s
              | none => setFiber rf {getFiber s rf with firstEffect := some workInProgress} s
            setFiber rf {getFiber s rf with lastEffect := some workInProgress} s
          else s
        | none => s
      match next with
      | some n => (s, .ok (some n))
      | none =>
        match (getFiber s workInProgress).sibling with
        | some sib => (s, .ok (some sib))
        | none =>
          match returnFiber with
          | some rf => completeUnitOfWork cfg fuel rf ignoreUnmountingErrors s
          | none =>
            match (getFiber s workInProgress).stateNode with
            | none => (s, .error .typeErr)
            | some root =>
              if (getRoot s root).current = workInProgress then
                (s, .error .cannotCommitSameTree)
              else
                let s := setRoot root {getRoot s root with current := workInProgress} s
                let out3 := commitAllWork cfg fuel workInProgress ignoreUnmountingErrors s
                match out3.2 with
                | .error e => (out3.1, .error e)
                | .ok _ =>
                  let out4 := findNextUnitOfWork out3.1
                  (out4.1, .ok out4.2)

/-- `commitAllWork` (lines 134-236): mutation pass, lifecycle pass, the
root's own effect, then hand any collected trapped errors to `handleErrors`. -/
def commitAllWork (cfg : Collaborators) (fuel : Nat) (finishedWork : Nat)
    (ignoreUnmountingErrors : Bool) (s : SchedulerState) :
    SchedulerState × Except JsError Unit :=
  match fuel with
  | 0 => (s, .error .fuelExhausted)
  | fuel+1 =>
    let p1 := commitPassOne cfg (s.fibers.length + 1)
      ((getFiber s finishedWork).firstEffect) ignoreUnmountingErrors none s
    let s := p1.1
    let p2 := commitPassTwo cfg (s.fibers.length + 1)
      ((getFiber s finishedWork).firstEffect) p1.2 s
    let s := p2.1
    let rootStep :=
      if (getFiber s finishedWork).effectTag ≠ NoEffect then
        let current := (getFiber s finishedWork).alternate
        let s := logEvent (.workCall current finishedWork) s
        let s := cfg.commitWork current finishedWork s
        let s := logEvent (.lifeCyclesCall current finishedWork) s
        let out := cfg.commitLifeCycles current finishedWork s
        match out.2 with
        | some trappedError => (out.1, some (p2.2.getD [] ++ [trappedError]))
        | none => (out.1, p2.2)
      else (s, p2.2)
    match rootStep.2 with
    | some allTrappedErrors => handleErrors cfg fuel allTrappedErrors rootStep.1
    | none => (rootStep.1, .ok ())

/-- The `while (fiber)` loop inside `handleErrors` (lines 642-646): drive the
work-in-progress of a re-rendering boundary to exhaustion with
`ignoreUnmountingErrors = true`. -/
def driveBoundaryWork (cfg : Collaborators) (fuel : Nat) (fiber : Option Nat)
    (s : SchedulerState) : SchedulerState × Except JsError Unit :=
  match fuel with
  | 0 => (s, .error .fuelExhausted)
  | fuel+1 =>
    match fiber with
    | none => (s, .ok ())
    | some f =>
      let out := performUnitOfWork cfg fuel f true s
      match out.2 with
      | .error e => (out.1, .error e)
      | .ok next => driveBoundaryWork cfg fuel next out.1

/-- The second forEach of a `handleErrors` iteration (lines 636-652): for
each affected boundary, schedule its work, clone the root's current fiber and
re-render synchronously, trapping any thrown error for the next iteration.
A throw from `scheduleErrorBoundaryWork` is outside the try and propagates. -/
def boundaryPhase (cfg : Collaborators) (fuel : Nat) (bs : List Nat)
    (nextT : Option (List TrappedError)) (s : SchedulerState) :
    SchedulerState × Except JsError (Option (List TrappedError)) :=
  match fuel with
  | 0 => (s, .error .fuelExhausted)
  | fuel+1 =>
    match bs with
    | [] => (s, .ok nextT)
    | boundary :: rest =>
      let priority := s.priorityContext
      let o1 := scheduleErrorBoundaryWorkGo (s.fibers.length + 1) boundary priority s
      match o1.2 with
      | .error e => (o1.1, .error e)
      | .ok root =>
        let o2 := cloneFiber ((getRoot o1.1 root).current) priority o1.1
        let o3 := driveBoundaryWork cfg fuel (some o2.2) o2.1
        match o3.2 with
        | .error nextError =>
          boundaryPhase cfg fuel rest
            (some (nextT.getD [] ++ [cfg.trapError boundary nextError])) o3.1
        | .ok _ => boundaryPhase cfg fuel rest nextT o3.1

/-- The fixed-point loop of `handleErrors` (lines 607-653), carrying
`firstUncaughtError` across iterations. -/
def handleErrorsLoop (cfg : Collaborators) (fuel : Nat)
    (trappedErrors : List TrappedError) (firstUncaughtError : Option JsError)
    (s : SchedulerState) : SchedulerState × Except JsError (Option JsError) :=
  match fuel with
  | 0 => (s, .error .fuelExhausted)
  | fuel+1 =>
    let a := ackPhase cfg trappedErrors s [] none firstUncaughtError
    let out := boundaryPhase cfg fuel a.2.1 a.2.2.1 a.1
    match out.2 with
    | .error e => (out.1, .error e)
    | .ok nextTrappedErrors =>
      match nextTrappedErrors with
      | some more => handleErrorsLoop cfg fuel more a.2.2.2 out.1
      | none => (out.1, .ok a.2.2.2)

/-- `handleErrors` (lines 601-668): run the fixed-point loop, reset the
current owner, and if some error had no boundary, clear the root registry and
surface the first such error to the caller. -/
def handleErrors (cfg : Collaborators) (fuel : Nat)
    (initialTrappedErrors : List TrappedError) (s : SchedulerState) :
    SchedulerState × Except JsError Unit :=
  match fuel with
  | 0 => (s, .error .fuelExhausted)
  | fuel+1 =>
    let out := handleErrorsLoop cfg fuel initialTrappedErrors none s
    match out.2 with
    | .error e => (out.1, .error e)
    | .ok firstUncaughtError =>
      let s := {out.1 with currentOwner := none}
      match firstUncaughtError with
      | some e =>
        ({s with nextScheduledRoot := none, lastScheduledRoot := none}, .error e)
      | none => (s, .ok ())

/-- The `while` loop of `performSynchronousWorkUnsafe` (lines 513-520). -/
def syncWorkLoop (cfg : Collaborators) (fuel : Nat) (s : SchedulerState) :
    SchedulerState × Except JsError Unit :=
  match fuel with
  | 0 => (s, .error .fuelExhausted)
  | fuel+1 =>
    match s.nextUnitOfWork with
    | none => (s, .ok ())
    | some u =>
      if s.nextPriorityLevel = PriorityLevel.SynchronousPriority then
        let out := performUnitOfWork cfg fuel u false s
        match out.2 with
        | .error e => (out.1, .error e)
        | .ok next =>
          let s := {out.1 with nextUnitOfWork := next}
          let s :=
            if s.nextUnitOfWork = none then
              let f := findNextUnitOfWork s
              {f.1 with nextUnitOfWork := f.2}
            else s
          syncWorkLoop cfg fuel s
      else (s, .ok ())

/-- `performSynchronousWorkUnsafe` (lines 510-534). -/
def performSynchronousWorkUnsafe (cfg : Collaborators) (fuel : Nat)
    (s : SchedulerState) : SchedulerState × Except JsError Unit :=
  match fuel with
  | 0 => (s, .error .fuelExhausted)
  | fuel+1 =>
    let f := findNextUnitOfWork s
    let s := {f.1 with nextUnitOfWork := f.2}
    let out := syncWorkLoop cfg fuel s
    match out.2 with
    | .error e => (out.1, .error e)
    | .ok _ =>
      let s := out.1
      match s.nextUnitOfWork with
      | none => (s, .ok ())
      | some _ =>
        if PriorityLevel.AnimationPriority < s.nextPriorityLevel then
          if s.isDeferredCallbackScheduled then (s, .ok ())
          else
            (logEvent .deferredCallbackScheduled
              {s with isDeferredCallbackScheduled := true}, .ok ())
        else
          if s.isAnimationCallbackScheduled then (s, .ok ())
          else
            (logEvent .animationCallbackScheduled
              {s with isAnimationCallbackScheduled := true}, .ok ())

/-- The `while` loop of `performAnimationWorkUnsafe` (lines 436-444). -/
def animationWorkLoop (cfg : Collaborators) (fuel : Nat) (s : SchedulerState) :
    SchedulerState × Except JsError Unit :=
  match fuel with
  | 0 => (s, .error .fuelExhausted)
  | fuel+1 =>
    match s.nextUnitOfWork with
    | none => (s, .ok ())
    | some u =>
      if s.nextPriorityLevel ≠ PriorityLevel.NoWork ∧
          s.nextPriorityLevel ≤ PriorityLevel.AnimationPriority then
        let out := performUnitOfWork cfg fuel u false s
        match out.2 with
        | .error e => (out.1, .error e)
        | .ok next =>
          let s := {out.1 with nextUnitOfWork := next}
          let s :=
            if s.nextUnitOfWork = none then
              let f := findNextUnitOfWork s
              {f.1 with nextUnitOfWork := f.2}
            else s
          animationWorkLoop cfg fuel s
      else (s, .ok ())

/-- `performAnimationWorkUnsafe` (lines 433-451): always start from the root,
run animation-priority work, and schedule a deferred callback when
lower-priority work remains. -/
def performAnimationWorkUnsafe (cfg : Collaborators) (fuel : Nat)
    (s : SchedulerState) : SchedulerState × Except JsError Unit :=
  match fuel with
  | 0 => (s, .error .fuelExhausted)
  | fuel+1 =>
    let f := findNextUnitOfWork s
    let s := {f.1 with nextUnitOfWork := f.2}
    let out := animationWorkLoop cfg fuel s
    match out.2 with
    | .error e => (out.1, .error e)
    | .ok _ =>
      let s := out.1
      match s.nextUnitOfWork with
      | none => (s, .ok ())
      | some _ =>
        if PriorityLevel.AnimationPriority < s.nextPriorityLevel then
          if s.isDeferredCallbackScheduled then (s, .ok ())
          else
            (logEvent .deferredCallbackScheduled
              {s with isDeferredCallbackScheduled := true}, .ok ())
        else (s, .ok ())

/-- The `while` loop of `performDeferredWorkUnsafe` (lines 378-392); the
deadline is the stream of successive `timeRemaining()` results. -/
def deferredWorkLoop (cfg : Collaborators) (fuel : Nat) (deadline : List Nat)
    (s : SchedulerState) : SchedulerState × Except JsError Unit :=
  match fuel with
  | 0 => (s, .error .fuelExhausted)
  | fuel+1 =>
    match s.nextUnitOfWork with
    | none => (s, .ok ())
    | some u =>
      if deadline.headD 0 > timeHeuristicForUnitOfWork then
        let out := performUnitOfWork cfg fuel u false s
        match out.2 with
        | .error e => (out.1, .error e)
        | .ok next =>
          let s := {out.1 with nextUnitOfWork := next}
          let s :=
            if s.nextUnitOfWork = none then
              let f := findNextUnitOfWork s
              {f.1 with nextUnitOfWork := f.2}
            else s
          deferredWorkLoop cfg fuel deadline.tail s
      else
        if s.isDeferredCallbackScheduled then (s, .ok ())
        else
          (logEvent .deferredCallbackScheduled
            {s with isDeferredCallbackScheduled := true}, .ok ())

/-- `performDeferredWorkUnsafe` (lines 374-393). -/
def performDeferredWorkUnsafe (cfg : Collaborators) (fuel : Nat)
    (deadline : List Nat) (s : SchedulerState) : SchedulerState × Except JsError Unit :=
  match fuel with
  | 0 => (s, .error .fuelExhausted)
  | fuel+1 =>
    let s :=
      if s.nextUnitOfWork = none then
        let f := findNextUnitOfWork s
        {f.1 with nextUnitOfWork := f.2}
      else s
    deferredWorkLoop cfg fuel deadline s

/-- The `try` block of `performAndHandleErrors` (lines 574-586): dispatch by
priority; the deferred path without a deadline throws. -/
def performAndHandleErrorsTry (cfg : Collaborators) (fuel : Nat)
    (priorityLevel : PriorityLevel) (deadline : Option (List Nat))
    (s : SchedulerState) : SchedulerState × Except JsError Unit :=
  match fuel with
  | 0 => (s, .error .fuelExhausted)
  | fuel+1 =>
    if priorityLevel = PriorityLevel.SynchronousPriority then
      performSynchronousWorkUnsafe cfg fuel s
    else if PriorityLevel.AnimationPriority < priorityLevel then
      match deadline with
      | none => (s, .error .noDeadline)
      | some d => performDeferredWorkUnsafe cfg fuel d s
    else performAnimationWorkUnsafe cfg fuel s

/-- `performAndHandleErrors` (lines 571-599): on a throw from the work loop,
reset the cursor; rethrow when no unit was in flight, otherwise trap the
failed unit and run the error pipeline on that single trapped error. -/
def performAndHandleErrors (cfg : Collaborators) (fuel : Nat)
    (priorityLevel : PriorityLevel) (deadline : Option (List Nat))
    (s : SchedulerState) : SchedulerState × Except JsError Unit :=
  match fuel with
  | 0 => (s, .error .fuelExhausted)
  | fuel+1 =>
    let out := performAndHandleErrorsTry cfg fuel priorityLevel deadline s
    match out.2 with
    | .ok _ => (out.1, .ok ())
    | .error error =>
      let failedUnitOfWork := out.1.nextUnitOfWork
      let s := {out.1 with nextUnitOfWork := none}
      match failedUnitOfWork with
      | none => (s, .error error)
      | some u => handleErrors cfg fuel [cfg.trapError u error] s

/-- `performSynchronousWork` (lines 536-545): batch all nested updates for
the duration of the synchronous flush, restoring the previous flag in a
`finally` on both normal and error exits. -/
def performSynchronousWork (cfg : Collaborators) (fuel : Nat)
    (s : SchedulerState) : SchedulerState × Except JsError Unit :=
  match fuel with
  | 0 => (s, .error .fuelExhausted)
  | fuel+1 =>
    let prev := s.shouldBatchUpdates
    let out := performAndHandleErrors cfg fuel PriorityLevel.SynchronousPriority none
      {s with shouldBatchUpdates := true}
    ({out.1 with shouldBatchUpdates := prev}, out.2)

/-- `scheduleSynchronousWork` (lines 547-569): force the root fiber to
synchronous priority, enqueue the root unless already scheduled, and — only
when it became the sole scheduled root and batching is off — flush
immediately. -/
def scheduleSynchronousWork (cfg : Collaborators) (fuel : Nat) (root : Nat)
    (s : SchedulerState) : SchedulerState × Except JsError Unit :=
  match fuel with
  | 0 => (s, .error .fuelExhausted)
  | fuel+1 =>
    let cur := (getRoot s root).current
    let s := setFiber cur
      {getFiber s cur with pendingWorkPriority := PriorityLevel.SynchronousPriority} s
    if (getRoot s root).isScheduled then (s, .ok ())
    else
      let s := setRoot root {getRoot s root with isScheduled := true} s
      match s.lastScheduledRoot with
      | some last =>
        let s := setRoot last {getRoot s last with nextScheduledRoot := some root} s
        ({s with lastScheduledRoot := some root}, .ok ())
      | none =>
        let s := {s with nextScheduledRoot := some root, lastScheduledRoot := some root}
        if s.shouldBatchUpdates then (s, .ok ())
        else performSynchronousWork cfg fuel s

/-- `scheduleWorkAtPriority` (lines 674-685): dispatch to the synchronous,
animation or deferred entry point by priority; NoWork is ignored. -/
def scheduleWorkAtPriority (cfg : Collaborators) (fuel : Nat) (root : Nat)
    (priorityLevel : PriorityLevel) (s : SchedulerState) :
    SchedulerState × Except JsError Unit :=
  match fuel with
  | 0 => (s, .error .fuelExhausted)
  | fuel+1 =>
    if priorityLevel = PriorityLevel.NoWork then (s, .ok ())
    else if priorityLevel = PriorityLevel.SynchronousPriority then
      scheduleSynchronousWork cfg fuel root s
    else if priorityLevel ≤ PriorityLevel.AnimationPriority then
      (scheduleAnimationWork root priorityLevel s, .ok ())
    else (scheduleDeferredWork root priorityLevel s, .ok ())

/-- The walk of `scheduleUpdate` (lines 687-711): raise (never lower) the
pending priority of each fiber and its alternate on the path to the root,
then dispatch the root at the captured priority. -/
def scheduleUpdateGo (cfg : Collaborators) (fuel : Nat) (fiber : Nat)
    (priorityLevel : PriorityLevel) (s : SchedulerState) :
    SchedulerState × Except JsError Unit :=
  match fuel with
  | 0 => (s, .error .fuelExhausted)
  | fuel+1 =>
    let s :=
      if (getFiber s fiber).pendingWorkPriority = PriorityLevel.NoWork ∨
          priorityLevel ≤ (getFiber s fiber).pendingWorkPriority then
        setFiber fiber {getFiber s fiber with pendingWorkPriority := priorityLevel} s
      else s
    let s :=
      match (getFiber s fiber).alternate with
      | some alt =>
        if (getFiber s alt).pendingWorkPriority = PriorityLevel.NoWork ∨
            priorityLevel ≤ (getFiber s alt).pendingWorkPriority then
          setFiber alt {getFiber s alt with pendingWorkPriority := priorityLevel} s
        else s
      | none => s
    match (getFiber s fiber).ret with
    | none =>
      if (getFiber s fiber).tag = TypeOfWork.HostContainer then
        match (getFiber s fiber).stateNode with
        | some root => scheduleWorkAtPriority cfg fuel root priorityLevel s
        | none => (s, .error .typeErr)
      else (s, .error .invalidRoot)
    | some parent => scheduleUpdateGo cfg fuel parent priorityLevel s

end

/-- `scheduleUpdate` (lines 687-688): the walk starts at the priority
context captured on entry. -/
def scheduleUpdate (cfg : Collaborators) (fuel : Nat) (fiber : Nat)
    (s : SchedulerState) : SchedulerState × Except JsError Unit :=
  scheduleUpdateGo cfg fuel fiber s.priorityContext s

/-- `scheduleWork` (lines 670-672). -/
def scheduleWork (cfg : Collaborators) (fuel : Nat) (root : Nat)
    (s : SchedulerState) : SchedulerState × Except JsError Unit :=
  scheduleWorkAtPriority cfg fuel root s.priorityContext s

/-- The effect list anchored at a fiber: the fibers reached from a
`firstEffect` pointer by following `nextEffect`. -/
def effectListFrom (s : SchedulerState) : Nat → Option Nat → List Nat
  | 0, _ => []
  | _+1, none => []
  | fuel+1, some f => f :: effectListFrom s fuel ((getFiber s f).nextEffect)

/-- Spec-side selection (spec 4.1): among a list of roots, the one whose
current fiber has the lexicographically-smallest non-NoWork
`pendingWorkPriority`, ties broken by registry order (first wins); none when
no listed root has work. -/
def specPick (pri : Nat → PriorityLevel) : List Nat → Option Nat
  | [] => none
  | r :: rest =>
    if pri r = PriorityLevel.NoWork then specPick pri rest
    else
      match specPick pri rest with
      | none => some r
      | some b => if pri r ≤ pri b then some r else some b

/-- One root check of the registry well-formedness predicate: the root index
and its current fiber index are in range, and the current fiber's alternate,
if any, is a distinct in-range fiber. -/
def rootOk (s : SchedulerState) (r : Nat) : Bool :=
  decide (r < s.roots.length) &&
  decide ((getRoot s r).current < s.fibers.length) &&
  (match (getFiber s ((getRoot s r).current)).alternate with
   | none => true
   | some a => decide (a < s.fibers.length) && decide (a ≠ (getRoot s r).current))

/-- Registry well-formedness: the `nextScheduledRoot` chain terminates, has
no duplicates, every chained root passes `rootOk`, and `lastScheduledRoot`
points at the last chain element. -/
def wfRegistry (s : SchedulerState) : Bool :=
  match chainFrom s (s.roots.length + 1) s.nextScheduledRoot with
  | none => false
  | some l =>
    decide l.Nodup && l.all (rootOk s) && (s.lastScheduledRoot == l.getLast?)

/-- `c` is the work-in-progress clone of fiber `f` at priority `p`: the two
are paired through `alternate` and the clone carries the requested pending
priority. -/
def isCloneOf (s : SchedulerState) (c f : Nat) (p : PriorityLevel) : Prop :=
  (getFiber s c).alternate = some f ∧ (getFiber s f).alternate = some c ∧
  (getFiber s c).pendingWorkPriority = p

/-- Unschedule every root in the list: clear its `isScheduled` flag and its
`nextScheduledRoot` link. -/
def applyUnschedule (rs : List Nat) (s : SchedulerState) : SchedulerState :=
  rs.foldl
    (fun st r =>
      setRoot r {getRoot st r with isScheduled := false, nextScheduledRoot := none} st)
    s

/-- The enqueue-only behavior of `scheduleSynchronousWork`: everything the
function does except the immediate flush. -/
def scheduleSynchronousWorkEnqueue (root : Nat) (s : SchedulerState) : SchedulerState :=
  let cur := (getRoot s root).current
  let s := setFiber cur
    {getFiber s cur with pendingWorkPriority := PriorityLevel.SynchronousPriority} s
  if (getRoot s root).isScheduled then s
  else
    let s := setRoot root {getRoot s root with isScheduled := true} s
    match s.lastScheduledRoot with
    | some last =>
      let s := setRoot last {getRoot s last with nextScheduledRoot := some root} s
      {s with lastScheduledRoot := some root}
    | none => {s with nextScheduledRoot := some root, lastScheduledRoot := some root}

/-- Scenario state for the effect-list bubbling claim: fiber 0 is the parent
P of A; fiber 1 is A (NoEffect, children B and C, sibling D); fiber 2 is B
(Update) with sibling C; fiber 3 is C (Update); fiber 4 is D. -/
def exC4 : SchedulerState := {
  fibers := [
    {},
    {ret := some 0, child := some 2, sibling := some 4, progressedChild := some 2},
    {ret := some 1, sibling := some 3, effectTag := Update},
    {ret := some 1, effectTag := Update},
    {ret := some 0}] }

/-- Scenario state for the commit Callback-bit claim: fiber 0 carries
effectTag Placement|Callback and is the sole entry of the effect list of the
finished root fiber 1. -/
def exC2 : SchedulerState := {
  fibers := [
    {effectTag := PlacementAndCallback},
    {firstEffect := some 0, lastEffect := some 0}] }

/-- Scenario state for the cursor-invalidation claim: one scheduled root with
low-priority pending work, a low-priority reconciliation in flight
(nextUnitOfWork = fiber 0). -/
def exC1 : SchedulerState := {
  fibers := [{pendingWorkPriority := .LowPriority}],
  roots := [{current := 0, isScheduled := true}],
  nextScheduledRoot := some 0,
  lastScheduledRoot := some 0,
  nextUnitOfWork := some 0,
  nextPriorityLevel := .LowPriority }

/-- Scenario state for the deprioritization counterexample: fiber 0 is a root
fiber (HostContainer, no parent) with synchronous pending work. -/
def exC5 : SchedulerState := {
  fibers := [{tag := .HostContainer, pendingWorkPriority := .SynchronousPriority,
              stateNode := some 0}],
  roots := [{current := 0}] }

/-- A one-root state in batched mode, parameterized by the pending priorities
of the root fiber and its alternate and by the priority context; used to
check the scheduleUpdate walk over the whole priority lattice. -/
def exC5u (p0 palt pc : PriorityLevel) : SchedulerState := {
  fibers := [
    {tag := .HostContainer, pendingWorkPriority := p0, stateNode := some 0,
     alternate := some 1},
    {pendingWorkPriority := palt, alternate := some 0}],
  roots := [{current := 0, isScheduled := true}],
  nextScheduledRoot := some 0,
  lastScheduledRoot := some 0,
  priorityContext := pc,
  shouldBatchUpdates := true }

/-- The cursor-invalidation scenario state in batched mode. -/
def exC1b : SchedulerState := {exC1 with shouldBatchUpdates := true}

/-- A state with no in-flight unit of work. -/
def exC10n : SchedulerState := {}

/-- A state with fiber 0 as the in-flight unit of work. -/
def exC10s : SchedulerState := {fibers := [{}], nextUnitOfWork := some 0}

/-- Spec-side definition (spec 4.6 step 1): the first error of a batch whose
boundary is null — the error that first-wins into firstUncaughtError. -/
def firstUncaughtOf : List TrappedError → Option JsError
  | [] => none
  | te :: rest =>
    match te.boundary with
    | none => some te.error
    | some _ => firstUncaughtOf rest

/-- A batch of two boundary-less trapped errors. -/
def exC7errs : List TrappedError :=
  [{boundary := none, error := .user 7}, {boundary := none, error := .user 8}]

/-- A one-fiber, one-root state whose root already points at fiber 0: the
finished work-in-progress would be the committed tree itself. -/
def exC6same : SchedulerState :=
  {fibers := [{stateNode := some 0}], roots := [{current := 0}]}

/-- A one-root state whose root points at the old tree (fiber 1) while the
finished work-in-progress is fiber 0. -/
def exC6diff : SchedulerState :=
  {fibers := [{stateNode := some 0}, {}], roots := [{current := 1}]}

/-- The scan loop of findNextUnitOfWork reformulated over the explicit list
of chained roots (same accumulator discipline as `scanRoots`). -/
def scanList (pri : Nat → PriorityLevel) :
    List Nat → Option Nat × PriorityLevel → Option Nat × PriorityLevel
  | [], acc => acc
  | r :: rest, acc =>
    let acc2 :=
      if pri r ≠ PriorityLevel.NoWork ∧
          (acc.2 = PriorityLevel.NoWork ∨ pri r < acc.2) then
        ((some r : Option Nat), pri r)
      else acc
    scanList pri rest acc2

/-- A two-root registry for exercising `findNextUnitOfWork`: root 0 is chained
first but its current fiber has no work left, root 1 carries Low-priority
work, and `lastScheduledRoot` points at root 1. -/
def exC3 : SchedulerState :=
  {fibers := [{}, {pendingWorkPriority := PriorityLevel.LowPriority}],
   roots := [{current := 0, isScheduled := true, nextScheduledRoot := some 1},
             {current := 1, isScheduled := true}],
   nextScheduledRoot := some 0,
   lastScheduledRoot := some 1}

end ReactFiberScheduler

namespace ReactFiberScheduler

theorem nextUnitOfWork_setFiber (i : Nat) (v : Fiber) (s : SchedulerState) :
    (setFiber i v s).nextUnitOfWork = s.nextUnitOfWork := rfl

theorem nextUnitOfWork_setRoot (i : Nat) (v : FiberRoot) (s : SchedulerState) :
    (setRoot i v s).nextUnitOfWork = s.nextUnitOfWork := rfl

theorem nextUnitOfWork_logEvent (e : HostEvent) (s : SchedulerState) :
    (logEvent e s).nextUnitOfWork = s.nextUnitOfWork := rfl

/-- C4: completing A's children B (fiber 2) and then C (fiber 3), both with
effectTag Update, splices their effects onto A (fiber 1) in completion
order: A's effect list is exactly B then C; A itself, having NoEffect, is not
appended to its own list; completing A hands back A's sibling. -/
theorem claim4_effect_list_bubbling :
    (completeUnitOfWork trivialCollaborators 10 2 false exC4).2 = .ok (some 3) ∧
    ((completeUnitOfWork trivialCollaborators 10 3 false
        ((completeUnitOfWork trivialCollaborators 10 2 false exC4).1)).2 = .ok (some 4)) ∧
    (let s2 := (completeUnitOfWork trivialCollaborators 10 3 false
        ((completeUnitOfWork trivialCollaborators 10 2 false exC4).1)).1
     (getFiber s2 1).firstEffect = some 2 ∧ (getFiber s2 1).lastEffect = some 3 ∧
     effectListFrom s2 10 ((getFiber s2 1).firstEffect) = [2, 3] ∧
     1 ∉ effectListFrom s2 10 ((getFiber s2 1).firstEffect)) := by
  decide

/-- C2 (code-bug evidence): committing an effect list holding a single fiber
with effectTag = Placement|Callback performs the insertion and then sets the
whole effectTag to NoEffect — wiping the Callback bit — so the lifecycle pass
never calls commitLifeCycles for that fiber: the host log of the entire
commit is exactly the one insertion call, although the input fiber had the
Callback bit set. -/
theorem claim2_callback_bit_lost :
    (getFiber exC2 0).effectTag &&& Callback ≠ 0 ∧
    (commitAllWork trivialCollaborators 5 1 false exC2).2 = .ok () ∧
    (commitAllWork trivialCollaborators 5 1 false exC2).1.hostLog
      = [HostEvent.insertionCall 0] ∧
    (getFiber (commitAllWork trivialCollaborators 5 1 false exC2).1 0).effectTag
      = NoEffect := by
  decide

/-- C8: performWithPriority and syncUpdates restore the previous
priorityContext on both normal and throwing exits — the final priority
context always equals the prior one, and the call's outcome (value or
propagated exception) is exactly the wrapped function's outcome on the
priority-adjusted state. -/
theorem claim8_priority_context_restored
    (p : PriorityLevel) (fn : SchedulerState → SchedulerState × Except JsError Unit)
    (g : SchedulerState → SchedulerState × Except JsError Nat) (s : SchedulerState) :
    (performWithPriority p fn s).1.priorityContext = s.priorityContext ∧
    (performWithPriority p fn s).2 = (fn {s with priorityContext := p}).2 ∧
    (syncUpdates g s).1.priorityContext = s.priorityContext ∧
    (syncUpdates g s).2
      = (g {s with priorityContext := PriorityLevel.SynchronousPriority}).2 :=
  ⟨rfl, rfl, rfl, rfl⟩

end ReactFiberScheduler

namespace ReactFiberScheduler

/-- C1 is false as stated: a scheduling call via scheduleAnimationWork at
AnimationPriority, which is at least as urgent as the current
nextPriorityLevel (LowPriority), leaves the in-flight cursor nextUnitOfWork
untouched instead of setting it to null. -/
theorem claim1_counterexample :
    PriorityLevel.AnimationPriority ≤ exC1.nextPriorityLevel ∧
    exC1.nextUnitOfWork = some 0 ∧
    (scheduleAnimationWork 0 PriorityLevel.AnimationPriority exC1).nextUnitOfWork
      = some 0 := by
  decide

/-- C1 amended: only scheduleDeferredWork invalidates the in-flight cursor —
whenever the requested priority is at least as urgent as nextPriorityLevel it
sets nextUnitOfWork to null; scheduleAnimationWork never modifies
nextUnitOfWork, and scheduleSynchronousWork leaves it unchanged whenever it
does not flush immediately (in particular in batched mode). -/
theorem claim1_amended :
    (∀ s root p, p ≤ s.nextPriorityLevel →
      (scheduleDeferredWork root p s).nextUnitOfWork = none) ∧
    (∀ s root p, (scheduleAnimationWork root p s).nextUnitOfWork = s.nextUnitOfWork) ∧
    (∀ cfg fuel s root, s.shouldBatchUpdates = true →
      ((scheduleSynchronousWork cfg (fuel+1) root s).1).nextUnitOfWork
        = s.nextUnitOfWork) := by
  refine ⟨?_, ?_, ?_⟩
  · intro s root p h
    unfold scheduleDeferredWork
    rw [if_pos h]
    dsimp only
    repeat' split
    all_goals rfl
  · intro s root p
    unfold scheduleAnimationWork
    dsimp only
    repeat' split
    all_goals rfl
  · intro cfg fuel s root h
    unfold scheduleSynchronousWork
    dsimp only
    repeat' split
    all_goals first | rfl | (rename_i hneg; exact absurd h hneg)

end ReactFiberScheduler

namespace ReactFiberScheduler

/-- C1 amended witness: the amended statement at concrete inputs, with every
hypothesis discharged. -/
theorem claim1_amended_witness :
    (PriorityLevel.LowPriority ≤ exC1.nextPriorityLevel ∧
     (scheduleDeferredWork 0 PriorityLevel.LowPriority exC1).nextUnitOfWork = none) ∧
    (scheduleAnimationWork 0 PriorityLevel.AnimationPriority exC1).nextUnitOfWork
      = exC1.nextUnitOfWork ∧
    (exC1b.shouldBatchUpdates = true ∧
     ((scheduleSynchronousWork trivialCollaborators 5 0 exC1b).1).nextUnitOfWork
       = exC1b.nextUnitOfWork) :=
  ⟨⟨by decide, claim1_amended.1 exC1 0 PriorityLevel.LowPriority (by decide)⟩,
   claim1_amended.2.1 exC1 0 PriorityLevel.AnimationPriority,
   ⟨by decide, claim1_amended.2.2 trivialCollaborators 4 exC1b 0 (by decide)⟩⟩

theorem minPriority_right :
    ∀ a b : PriorityLevel, (a = .NoWork ∨ b ≤ a) → minPriority a b = b := by
  decide

theorem minPriority_left :
    ∀ a b : PriorityLevel, ¬(a = .NoWork ∨ b ≤ a) → minPriority a b = a := by
  decide

theorem minPriority_sync :
    ∀ a : PriorityLevel, minPriority a .SynchronousPriority = .SynchronousPriority := by
  decide

/-- C5 is false as stated: scheduleErrorBoundaryWork — an operation other
than resetWorkPriority — overwrites pendingWorkPriority unconditionally; on a
root fiber with SynchronousPriority pending work it installs the strictly
less urgent, non-NoWork LowPriority. -/
theorem claim5_counterexample :
    (getFiber exC5 0).pendingWorkPriority = PriorityLevel.SynchronousPriority ∧
    (getFiber (scheduleErrorBoundaryWorkGo 5 0 PriorityLevel.LowPriority exC5).1
      0).pendingWorkPriority = PriorityLevel.LowPriority ∧
    PriorityLevel.SynchronousPriority < PriorityLevel.LowPriority ∧
    PriorityLevel.LowPriority ≠ PriorityLevel.NoWork ∧
    (scheduleErrorBoundaryWorkGo 5 0 PriorityLevel.LowPriority exC5).2
      = .ok 0 := by
  decide

/-- C5 amended: the four listed scheduling operations never deprioritize —
scheduleDeferredWork and scheduleAnimationWork set the root fiber's
pendingWorkPriority to min(existing, requested); scheduleSynchronousWork (in
batched mode, where no immediate flush intervenes) sets it to
min(existing, Sync) = Sync; and the scheduleUpdate walk sets the walked fiber
and its alternate to min(existing, priorityContext), checked over the whole
priority lattice.  The operation scheduleErrorBoundaryWork of the error
pipeline is excluded: it overwrites priorities unconditionally. -/
theorem claim5_amended :
    (∀ s root p, ((getRoot s root).current) < s.fibers.length →
      (getFiber (scheduleDeferredWork root p s)
          ((getRoot s root).current)).pendingWorkPriority
        = minPriority
            ((getFiber s ((getRoot s root).current)).pendingWorkPriority) p) ∧
    (∀ s root p, ((getRoot s root).current) < s.fibers.length →
      (getFiber (scheduleAnimationWork root p s)
          ((getRoot s root).current)).pendingWorkPriority
        = minPriority
            ((getFiber s ((getRoot s root).current)).pendingWorkPriority) p) ∧
    (∀ cfg fuel s root, ((getRoot s root).current) < s.fibers.length →
      s.shouldBatchUpdates = true →
      (getFiber (scheduleSynchronousWork cfg (fuel+1) root s).1
          ((getRoot s root).current)).pendingWorkPriority
        = minPriority ((getFiber s ((getRoot s root).current)).pendingWorkPriority)
            PriorityLevel.SynchronousPriority) ∧
    (∀ p0 palt pc,
      (getFiber (scheduleUpdate trivialCollaborators 9 0 (exC5u p0 palt pc)).1
          0).pendingWorkPriority = minPriority p0 pc ∧
      (getFiber (scheduleUpdate trivialCollaborators 9 0 (exC5u p0 palt pc)).1
          1).pendingWorkPriority = minPriority palt pc) := by
  refine ⟨?_, ?_, ?_, ?_⟩
  · intro s root p hc
    unfold scheduleDeferredWork
    dsimp only
    repeat' split
    all_goals
      simp_all [getFiber, getRoot, setFiber, setRoot, logEvent,
        List.getD_eq_getElem?_getD, List.getElem?_set_self',
        minPriority_right, minPriority_left]
  · intro s root p hc
    unfold scheduleAnimationWork
    dsimp only
    repeat' split
    all_goals
      simp_all [getFiber, getRoot, setFiber, setRoot, logEvent,
        List.getD_eq_getElem?_getD, List.getElem?_set_self',
        minPriority_right, minPriority_left]
  · intro cfg fuel s root hc hb
    unfold scheduleSynchronousWork
    dsimp only
    repeat' split
    all_goals
      simp_all [getFiber, getRoot, setFiber, setRoot, logEvent,
        List.getD_eq_getElem?_getD, List.getElem?_set_self',
        minPriority_right, minPriority_left, minPriority_sync]
  · decide

end ReactFiberScheduler

namespace ReactFiberScheduler

/-- C5 amended witness: the amended statement at concrete inputs, hypotheses
discharged. -/
theorem claim5_amended_witness :
    ((getRoot exC1 0).current < exC1.fibers.length ∧
     (getFiber (scheduleDeferredWork 0 PriorityLevel.AnimationPriority exC1)
         ((getRoot exC1 0).current)).pendingWorkPriority
       = minPriority
           ((getFiber exC1 ((getRoot exC1 0).current)).pendingWorkPriority)
           PriorityLevel.AnimationPriority) ∧
    ((getFiber (scheduleAnimationWork 0 PriorityLevel.AnimationPriority exC1)
         ((getRoot exC1 0).current)).pendingWorkPriority
       = minPriority
           ((getFiber exC1 ((getRoot exC1 0).current)).pendingWorkPriority)
           PriorityLevel.AnimationPriority) ∧
    (exC1b.shouldBatchUpdates = true ∧
     (getFiber (scheduleSynchronousWork trivialCollaborators 5 0 exC1b).1
         ((getRoot exC1b 0).current)).pendingWorkPriority
       = minPriority
           ((getFiber exC1b ((getRoot exC1b 0).current)).pendingWorkPriority)
           PriorityLevel.SynchronousPriority) ∧
    ((getFiber (scheduleUpdate trivialCollaborators 9 0
         (exC5u .LowPriority .NoWork .AnimationPriority)).1 0).pendingWorkPriority
       = minPriority PriorityLevel.LowPriority PriorityLevel.AnimationPriority ∧
     (getFiber (scheduleUpdate trivialCollaborators 9 0
         (exC5u .LowPriority .NoWork .AnimationPriority)).1 1).pendingWorkPriority
       = minPriority PriorityLevel.NoWork PriorityLevel.AnimationPriority) :=
  ⟨⟨by decide, claim5_amended.1 exC1 0 PriorityLevel.AnimationPriority (by decide)⟩,
   claim5_amended.2.1 exC1 0 PriorityLevel.AnimationPriority (by decide),
   ⟨by decide,
    claim5_amended.2.2.1 trivialCollaborators 4 exC1b 0 (by decide) (by decide)⟩,
   claim5_amended.2.2.2 .LowPriority .NoWork .AnimationPriority⟩

/-- C9: performSynchronousWork restores the previous shouldBatchUpdates on
every exit (normal or throwing); the entire synchronous flush runs on a state
whose shouldBatchUpdates is true; and a scheduleSynchronousWork call made
while shouldBatchUpdates is true — as it is for the whole duration of a
flush — performs no nested immediate flush: it is exactly the enqueue-only
state change. -/
theorem claim9_no_nested_sync_flush :
    (∀ cfg fuel s,
      (performSynchronousWork cfg fuel s).1.shouldBatchUpdates
        = s.shouldBatchUpdates) ∧
    (∀ cfg fuel s,
      performSynchronousWork cfg (fuel+1) s
        = (fun out => ({out.1 with shouldBatchUpdates := s.shouldBatchUpdates}, out.2))
            (performAndHandleErrors cfg fuel PriorityLevel.SynchronousPriority none
              {s with shouldBatchUpdates := true})) ∧
    (∀ cfg fuel root s, s.shouldBatchUpdates = true →
      scheduleSynchronousWork cfg (fuel+1) root s
        = (scheduleSynchronousWorkEnqueue root s, .ok ())) := by
  refine ⟨?_, ?_, ?_⟩
  · intro cfg fuel s
    cases fuel <;> rfl
  · intro cfg fuel s
    rfl
  · intro cfg fuel root s h
    unfold scheduleSynchronousWork scheduleSynchronousWorkEnqueue
    dsimp only
    repeat' split
    all_goals first | rfl | (rename_i hneg; exact absurd h hneg)

/-- C9 witness: a batched state, hypothesis discharged. -/
theorem claim9_witness :
    exC1b.shouldBatchUpdates = true ∧
    scheduleSynchronousWork trivialCollaborators 5 0 exC1b
      = (scheduleSynchronousWorkEnqueue 0 exC1b, .ok ()) :=
  ⟨by decide,
   claim9_no_nested_sync_flush.2.2 trivialCollaborators 4 0 exC1b (by decide)⟩

/-- C10: when the dispatched work loop of performAndHandleErrors throws, the
catch block inspects the cursor at the moment of the throw: if it is null the
original error is rethrown unchanged with no error-pipeline involvement;
otherwise the cursor is reset to null, the failed unit is handed to trapError
and handleErrors runs on exactly that single trapped error. -/
theorem claim10_catch_dispatch
    (cfg : Collaborators) (fuel : Nat) (p : PriorityLevel)
    (d : Option (List Nat)) (s s1 : SchedulerState) (e : JsError)
    (h : performAndHandleErrorsTry cfg fuel p d s = (s1, .error e)) :
    (s1.nextUnitOfWork = none →
      performAndHandleErrors cfg (fuel+1) p d s = (s1, .error e)) ∧
    (∀ u, s1.nextUnitOfWork = some u →
      performAndHandleErrors cfg (fuel+1) p d s
        = handleErrors cfg fuel [cfg.trapError u e]
            {s1 with nextUnitOfWork := none}) := by
  have key : performAndHandleErrors cfg (fuel+1) p d s
      = (let out := performAndHandleErrorsTry cfg fuel p d s
         match out.2 with
         | .ok _ => (out.1, Except.ok ())
         | .error error =>
           match out.1.nextUnitOfWork with
           | none => ({out.1 with nextUnitOfWork := none}, .error error)
           | some u =>
             handleErrors cfg fuel [cfg.trapError u error]
               {out.1 with nextUnitOfWork := none}) := rfl
  constructor
  · intro h1
    rw [key, h]
    dsimp only
    rw [h1]
    cases s1
    simp_all
  · intro u h1
    rw [key, h]
    dsimp only
    rw [h1]

/-- C10 witness: the deferred path without a deadline throws; with no unit in
flight the error is rethrown, with one in flight it is trapped and handed to
handleErrors. -/
theorem claim10_witness :
    (performAndHandleErrorsTry trivialCollaborators 3 .LowPriority none exC10n
       = (exC10n, .error .noDeadline) ∧
     exC10n.nextUnitOfWork = none ∧
     performAndHandleErrors trivialCollaborators 4 .LowPriority none exC10n
       = (exC10n, .error .noDeadline)) ∧
    (performAndHandleErrorsTry trivialCollaborators 3 .LowPriority none exC10s
       = (exC10s, .error .noDeadline) ∧
     exC10s.nextUnitOfWork = some 0 ∧
     performAndHandleErrors trivialCollaborators 4 .LowPriority none exC10s
       = handleErrors trivialCollaborators 3
           [trivialCollaborators.trapError 0 .noDeadline]
           {exC10s with nextUnitOfWork := none}) :=
  ⟨⟨by decide, by decide,
    (claim10_catch_dispatch trivialCollaborators 3 .LowPriority none exC10n exC10n
      .noDeadline (by decide)).1 (by decide)⟩,
   ⟨by decide, by decide,
    (claim10_catch_dispatch trivialCollaborators 3 .LowPriority none exC10s exC10s
      .noDeadline (by decide)).2 0 (by decide)⟩⟩

end ReactFiberScheduler

namespace ReactFiberScheduler

theorem ackPhase_firstUncaught (cfg : Collaborators) :
    ∀ (es : List TrappedError) (s : SchedulerState) (bs : List Nat)
      (nextT : Option (List TrappedError)) (firstU : Option JsError),
    (ackPhase cfg es s bs nextT firstU).2.2.2
      = firstU.orElse (fun _ => firstUncaughtOf es) := by
  intro es
  induction es with
  | nil =>
    intro s bs nextT firstU
    cases firstU <;> simp [ackPhase, firstUncaughtOf, Option.orElse]
  | cons te rest ih =>
    intro s bs nextT firstU
    simp only [ackPhase, firstUncaughtOf]
    cases hb : te.boundary with
    | none =>
      dsimp only
      rw [ih]
      cases firstU <;> simp [Option.orElse]
    | some boundary =>
      dsimp only
      by_cases hmem : boundary ∈ bs
      · rw [if_pos hmem, ih]
      · rw [if_neg hmem]
        cases hout : (cfg.acknowledgeErrorInBoundary boundary te.error s).2 <;>
          dsimp only <;> rw [ih]

theorem handleErrorsLoop_keeps_firstUncaught (cfg : Collaborators) :
    ∀ (fuel : Nat) (errs : List TrappedError) (s : SchedulerState) (e : JsError),
    (handleErrorsLoop cfg fuel errs (some e) s).2 = .ok (some e) ∨
    ∃ e2, (handleErrorsLoop cfg fuel errs (some e) s).2 = .error e2 := by
  intro fuel
  induction fuel with
  | zero => intro errs s e; right; exact ⟨.fuelExhausted, rfl⟩
  | succ fuel ih =>
    intro errs s e
    rw [show handleErrorsLoop cfg (fuel+1) errs (some e) s
        = (let a := ackPhase cfg errs s [] none (some e)
           let out := boundaryPhase cfg fuel a.2.1 a.2.2.1 a.1
           match out.2 with
           | .error e2 => (out.1, .error e2)
           | .ok nextTrappedErrors =>
             match nextTrappedErrors with
             | some more => handleErrorsLoop cfg fuel more a.2.2.2 out.1
             | none => (out.1, .ok a.2.2.2)) from rfl]
    have ha : (ackPhase cfg errs s [] none (some e)).2.2.2 = some e := by
      rw [ackPhase_firstUncaught]; rfl
    dsimp only
    cases hbp : (boundaryPhase cfg fuel
        (ackPhase cfg errs s [] none (some e)).2.1
        (ackPhase cfg errs s [] none (some e)).2.2.1
        (ackPhase cfg errs s [] none (some e)).1).2 with
    | error e2 => right; exact ⟨e2, rfl⟩
    | ok nextT =>
      cases nextT with
      | some more => rw [ha]; exact ih more _ e
      | none => left; rw [ha]

/-- C7: (1) each pass of `handleErrors` over a batch records into
firstUncaughtError the already-recorded error if any, else the first
boundary-less error of the batch (first-wins); (2) once recorded, the fixed
point loop never forgets it — it ends with exactly that error unless a throw
escapes; (3) when the loop ends with firstUncaughtError set, handleErrors
clears the root registry (nextScheduledRoot = lastScheduledRoot = null) and
throws that first uncaught error to the caller. -/
theorem claim7_first_uncaught_error :
    (∀ (cfg : Collaborators) (es : List TrappedError) (s : SchedulerState)
       (bs : List Nat) (nextT : Option (List TrappedError))
       (firstU : Option JsError),
      (ackPhase cfg es s bs nextT firstU).2.2.2
        = firstU.orElse (fun _ => firstUncaughtOf es)) ∧
    (∀ (cfg : Collaborators) (fuel : Nat) (errs : List TrappedError)
       (s : SchedulerState) (e : JsError),
      (handleErrorsLoop cfg fuel errs (some e) s).2 = .ok (some e) ∨
      ∃ e2, (handleErrorsLoop cfg fuel errs (some e) s).2 = .error e2) ∧
    (∀ (cfg : Collaborators) (fuel : Nat) (errs : List TrappedError)
       (s s1 : SchedulerState) (e : JsError),
      handleErrorsLoop cfg fuel errs none s = (s1, .ok (some e)) →
      handleErrors cfg (fuel+1) errs s
        = ({s1 with
             currentOwner := none, nextScheduledRoot := none,
             lastScheduledRoot := none}, .error e)) := by
  refine ⟨fun cfg => ackPhase_firstUncaught cfg,
          fun cfg => handleErrorsLoop_keeps_firstUncaught cfg, ?_⟩
  intro cfg fuel errs s s1 e hloop
  rw [show handleErrors cfg (fuel+1) errs s
      = (let out := handleErrorsLoop cfg fuel errs none s
         match out.2 with
         | .error e2 => (out.1, .error e2)
         | .ok firstU =>
           match firstU with
           | some e2 =>
             ({out.1 with
                currentOwner := none, nextScheduledRoot := none,
                lastScheduledRoot := none}, .error e2)
           | none => ({out.1 with currentOwner := none}, .ok ())) from rfl]
  rw [hloop]

/-- C7 witness: a batch of two uncaught errors on a scheduled-root state; the
loop ends holding the first error, the registry is cleared, and the first
error is thrown. -/
theorem claim7_witness :
    handleErrorsLoop trivialCollaborators 2 exC7errs none exC1 = (exC1, .ok (some (.user 7))) ∧
    handleErrors trivialCollaborators 3 exC7errs exC1
      = ({exC1 with
           currentOwner := none, nextScheduledRoot := none,
           lastScheduledRoot := none}, .error (.user 7)) :=
  ⟨by decide,
   claim7_first_uncaught_error.2.2 trivialCollaborators 2 exC7errs exC1 exC1
     (.user 7) (by decide)⟩

end ReactFiberScheduler

namespace ReactFiberScheduler

theorem getFiber_setFiber (s : SchedulerState) (i : Nat) (v : Fiber) (j : Nat) :
    getFiber (setFiber i v s) j
      = if i = j ∧ i < s.fibers.length then v else getFiber s j := by
  unfold getFiber setFiber
  dsimp only
  by_cases h1 : i = j
  · subst h1
    by_cases h2 : i < s.fibers.length
    · simp [List.getD_eq_getElem?_getD, List.getElem?_set_eq_of_lt, h2]
    · rw [List.set_eq_of_length_le (Nat.le_of_not_lt h2)]
      simp [h2]
  · simp [List.getD_eq_getElem?_getD, List.getElem?_set_ne h1, h1]

theorem getRoot_setRoot (s : SchedulerState) (i : Nat) (v : FiberRoot) (j : Nat) :
    getRoot (setRoot i v s) j
      = if i = j ∧ i < s.roots.length then v else getRoot s j := by
  unfold getRoot setRoot
  dsimp only
  by_cases h1 : i = j
  · subst h1
    by_cases h2 : i < s.roots.length
    · simp [List.getD_eq_getElem?_getD, List.getElem?_set_eq_of_lt, h2]
    · rw [List.set_eq_of_length_le (Nat.le_of_not_lt h2)]
      simp [h2]
  · simp [List.getD_eq_getElem?_getD, List.getElem?_set_ne h1, h1]

theorem roots_setFiber (i : Nat) (v : Fiber) (s : SchedulerState) :
    (setFiber i v s).roots = s.roots := rfl

theorem roots_logEvent (e : HostEvent) (s : SchedulerState) :
    (logEvent e s).roots = s.roots := rfl

theorem getRoot_congr {s1 s2 : SchedulerState} (h : s1.roots = s2.roots) (i : Nat) :
    getRoot s1 i = getRoot s2 i := by
  unfold getRoot; rw [h]

end ReactFiberScheduler

namespace ReactFiberScheduler

theorem commitPassOne_roots (cfg : Collaborators)
    (hins : ∀ f st, cfg.commitInsertion f st = st)
    (hwork : ∀ c f st, cfg.commitWork c f st = st)
    (hdel : ∀ f st, cfg.commitDeletion f st = (st, none)) :
    ∀ (fuel : Nat) (eff : Option Nat) (iue : Bool)
      (acc : Option (List TrappedError)) (s : SchedulerState),
    (commitPassOne cfg fuel eff iue acc s).1.roots = s.roots ∧
    (commitPassOne cfg fuel eff iue acc s).2 = acc := by
  intro fuel
  induction fuel with
  | zero => intro eff iue acc s; exact ⟨rfl, rfl⟩
  | succ fuel ih =>
    intro eff iue acc s
    cases eff with
    | none => exact ⟨rfl, rfl⟩
    | some f =>
      simp only [commitPassOne, hins, hwork, hdel]
      repeat' split
      all_goals
        constructor
      all_goals first
        | exact (ih _ _ _ _).1.trans rfl
        | exact (ih _ _ _ _).2.trans rfl
        | rfl

theorem commitPassTwo_roots (cfg : Collaborators)
    (hlc : ∀ c f st, cfg.commitLifeCycles c f st = (st, none)) :
    ∀ (fuel : Nat) (eff : Option Nat)
      (acc : Option (List TrappedError)) (s : SchedulerState),
    (commitPassTwo cfg fuel eff acc s).1.roots = s.roots ∧
    (commitPassTwo cfg fuel eff acc s).2 = acc := by
  intro fuel
  induction fuel with
  | zero => intro eff acc s; exact ⟨rfl, rfl⟩
  | succ fuel ih =>
    intro eff acc s
    cases eff with
    | none => exact ⟨rfl, rfl⟩
    | some f =>
      simp only [commitPassTwo, hlc]
      repeat' split
      all_goals
        constructor
      all_goals first
        | exact (ih _ _ _).1.trans rfl
        | exact (ih _ _ _).2.trans rfl
        | rfl

end ReactFiberScheduler

namespace ReactFiberScheduler

theorem commitAllWork_ok (cfg : Collaborators)
    (hins : ∀ f st, cfg.commitInsertion f st = st)
    (hwork : ∀ c f st, cfg.commitWork c f st = st)
    (hdel : ∀ f st, cfg.commitDeletion f st = (st, none))
    (hlc : ∀ c f st, cfg.commitLifeCycles c f st = (st, none)) :
    ∀ (fuel fw : Nat) (iue : Bool) (s : SchedulerState),
    (commitAllWork cfg (fuel+1) fw iue s).1.roots = s.roots ∧
    (commitAllWork cfg (fuel+1) fw iue s).2 = .ok () := by
  intro fuel fw iue s
  rw [show commitAllWork cfg (fuel+1) fw iue s
      = (let p1 := commitPassOne cfg (s.fibers.length + 1)
           ((getFiber s fw).firstEffect) iue none s
         let s2 := p1.1
         let p2 := commitPassTwo cfg (s2.fibers.length + 1)
           ((getFiber s2 fw).firstEffect) p1.2 s2
         let s3 := p2.1
         let rootStep :=
           if (getFiber s3 fw).effectTag ≠ NoEffect then
             let current := (getFiber s3 fw).alternate
             let s4 := logEvent (.workCall current fw) s3
             let s5 := cfg.commitWork current fw s4
             let s6 := logEvent (.lifeCyclesCall current fw) s5
             let out := cfg.commitLifeCycles current fw s6
             match out.2 with
             | some trappedError => (out.1, some (p2.2.getD [] ++ [trappedError]))
             | none => (out.1, p2.2)
           else (s3, p2.2)
         match rootStep.2 with
         | some allTrappedErrors => handleErrors cfg fuel allTrappedErrors rootStep.1
         | none => (rootStep.1, .ok ())) from rfl]
  have h1 := commitPassOne_roots cfg hins hwork hdel (s.fibers.length + 1)
    ((getFiber s fw).firstEffect) iue none s
  dsimp only
  rw [h1.2]
  set C1 := commitPassOne cfg (s.fibers.length + 1)
    ((getFiber s fw).firstEffect) iue none s with hC1
  have h2 := commitPassTwo_roots cfg hlc
    (C1.1.fibers.length + 1) ((getFiber C1.1 fw).firstEffect) none C1.1
  rw [h2.2]
  set C2 := commitPassTwo cfg
    (C1.1.fibers.length + 1) ((getFiber C1.1 fw).firstEffect) none C1.1 with hC2
  simp only [hwork, hlc]
  by_cases hET : (getFiber C2.1 fw).effectTag ≠ NoEffect
  · rw [if_pos hET]
    dsimp only
    refine ⟨?_, rfl⟩
    exact ((roots_logEvent _ _).trans ((roots_logEvent _ _).trans
      (h2.1.trans h1.1))).trans rfl
  · rw [if_neg hET]
    dsimp only
    exact ⟨h2.1.trans h1.1, rfl⟩

end ReactFiberScheduler

namespace ReactFiberScheduler

theorem roots_cloneFiber (f : Nat) (p : PriorityLevel) (s : SchedulerState) :
    (cloneFiber f p s).1.roots = s.roots := by
  unfold cloneFiber
  dsimp only
  split <;> rfl

theorem current_setRoot (s : SchedulerState) (r : Nat) (v : FiberRoot) (i : Nat)
    (hv : v.current = (getRoot s r).current) :
    (getRoot (setRoot r v s) i).current = (getRoot s i).current := by
  rw [getRoot_setRoot]
  split
  · next h => rw [hv, h.1]
  · rfl

theorem getRoot_setTop (s : SchedulerState) (x y : Option Nat) (z : PriorityLevel)
    (i : Nat) :
    getRoot {s with nextScheduledRoot := x, lastScheduledRoot := y,
                    nextPriorityLevel := z} i = getRoot s i := rfl

theorem getRoot_setNext (s : SchedulerState) (x : Option Nat) (i : Nat) :
    getRoot {s with nextScheduledRoot := x} i = getRoot s i := rfl

theorem current_unscheduleLoop :
    ∀ (fuel : Nat) (s : SchedulerState) (i : Nat),
    (getRoot (unscheduleLoop fuel s).1 i).current = (getRoot s i).current := by
  intro fuel
  induction fuel with
  | zero => intro s i; rfl
  | succ fuel ih =>
    intro s i
    simp only [unscheduleLoop]
    split
    · rfl
    · rename_i r heq
      split
      · split
        · rw [getRoot_setTop]
          exact (current_setRoot (setRoot r {getRoot s r with isScheduled := false} s) r
              {getRoot (setRoot r {getRoot s r with isScheduled := false} s) r with
                nextScheduledRoot := none} i rfl).trans
            (current_setRoot s r {getRoot s r with isScheduled := false} i rfl)
        · refine (ih _ i).trans ?_
          rw [getRoot_setNext]
          exact (current_setRoot (setRoot r {getRoot s r with isScheduled := false} s) r
              {getRoot (setRoot r {getRoot s r with isScheduled := false} s) r with
                nextScheduledRoot := none} i rfl).trans
            (current_setRoot s r {getRoot s r with isScheduled := false} i rfl)
      · rfl

theorem current_findNextUnitOfWork (s : SchedulerState) (i : Nat) :
    (getRoot (findNextUnitOfWork s).1 i).current = (getRoot s i).current := by
  unfold findNextUnitOfWork
  dsimp only
  split
  · exact current_unscheduleLoop _ s i
  · split
    · rw [getRoot_congr (roots_cloneFiber _ _ _) i]
      exact current_unscheduleLoop _ s i
    · exact current_unscheduleLoop _ s i

end ReactFiberScheduler

namespace ReactFiberScheduler

theorem completeUnitOfWork_succ (cfg : Collaborators) (fuel : Nat) (wip : Nat)
    (iue : Bool) (s : SchedulerState) :
    completeUnitOfWork cfg (fuel+1) wip iue s
      = (let out := cfg.completeWork ((getFiber s wip).alternate) wip s
         match out.2 with
         | .error e => (out.1, .error e)
         | .ok next =>
           let s1 := resetWorkPriority wip out.1
           let s2 := setFiber wip
             {getFiber s1 wip with pendingProps := false, updateQueue := false} s1
           let returnFiber := (getFiber s2 wip).ret
           let s3 :=
             match returnFiber with
             | some rf =>
               let sA :=
                 if (getFiber s2 rf).firstEffect = none then
                   setFiber rf
                     {getFiber s2 rf with
                       firstEffect := (getFiber s2 wip).firstEffect} s2
                 else s2
               let sB :=
                 match (getFiber sA wip).lastEffect with
                 | some wle =>
                   let sB1 :=
                     match (getFiber sA rf).lastEffect with
                     | some rle =>
                       setFiber rle
                         {getFiber sA rle with
                           nextEffect := (getFiber sA wip).firstEffect} sA
                     | none => sA
                   setFiber rf {getFiber sB1 rf with lastEffect := some wle} sB1
                 | none => sA
               if (getFiber sB wip).effectTag ≠ NoEffect then
                 let sC :=
                   match (getFiber sB rf).lastEffect with
                   | some rle =>
                     setFiber rle {getFiber sB rle with nextEffect := some wip} sB
                   | none =>
                     setFiber rf {getFiber sB rf with firstEffect := some wip} sB
                 setFiber rf {getFiber sC rf with lastEffect := some wip} sC
               else sB
             | none => s2
           match next with
           | some n => (s3, .ok (some n))
           | none =>
             match (getFiber s3 wip).sibling with
             | some sib => (s3, .ok (some sib))
             | none =>
               match returnFiber with
               | some rf => completeUnitOfWork cfg fuel rf iue s3
               | none =>
                 match (getFiber s3 wip).stateNode with
                 | none => (s3, .error .typeErr)
                 | some root =>
                   if (getRoot s3 root).current = wip then
                     (s3, .error .cannotCommitSameTree)
                   else
                     let s4 := setRoot root {getRoot s3 root with current := wip} s3
                     let out3 := commitAllWork cfg fuel wip iue s4
                     match out3.2 with
                     | .error e => (out3.1, .error e)
                     | .ok _ =>
                       let out4 := findNextUnitOfWork out3.1
                       (out4.1, .ok out4.2)) := rfl

end ReactFiberScheduler

namespace ReactFiberScheduler

theorem getFiber_prep (s : SchedulerState) (f : Nat) (hf : f < s.fibers.length) :
    getFiber (setFiber f {getFiber (resetWorkPriority f s) f with
      pendingProps := false, updateQueue := false} (resetWorkPriority f s)) f
    = {getFiber s f with
        pendingWorkPriority := bubbleChildPriority s (s.fibers.length + 1)
          ((getFiber s f).progressedChild) PriorityLevel.NoWork,
        pendingProps := false, updateQueue := false} := by
  unfold resetWorkPriority
  rw [getFiber_setFiber, getFiber_setFiber]
  simp [setFiber, hf, List.length_set]

end ReactFiberScheduler

namespace ReactFiberScheduler

theorem scheduling_preserves_current (s : SchedulerState) (root i : Nat)
    (p : PriorityLevel) :
    (getRoot (scheduleDeferredWork root p s) i).current = (getRoot s i).current ∧
    (getRoot (scheduleAnimationWork root p s) i).current = (getRoot s i).current ∧
    (getRoot (findNextUnitOfWork s).1 i).current = (getRoot s i).current := by
  refine ⟨?_, ?_, current_findNextUnitOfWork s i⟩
  · unfold scheduleDeferredWork
    dsimp only
    repeat' split
    all_goals first
      | rfl
      | (refine current_setRoot _ _ _ i ?_; rfl)
      | (refine Eq.trans (current_setRoot _ _ _ i ?_) (current_setRoot _ _ _ i ?_) <;> rfl)
  · unfold scheduleAnimationWork
    dsimp only
    repeat' split
    all_goals first
      | rfl
      | (refine current_setRoot _ _ _ i ?_; rfl)
      | (refine Eq.trans (current_setRoot _ _ _ i ?_) (current_setRoot _ _ _ i ?_) <;> rfl)

theorem syncSchedule_preserves_current (cfg : Collaborators) (fuel : Nat)
    (s : SchedulerState) (root i : Nat) (hb : s.shouldBatchUpdates = true) :
    (getRoot (scheduleSynchronousWork cfg (fuel+1) root s).1 i).current
      = (getRoot s i).current := by
  unfold scheduleSynchronousWork
  dsimp only
  repeat' split
  all_goals first
    | rfl
    | (refine current_setRoot _ _ _ i ?_; rfl)
    | (refine Eq.trans (current_setRoot _ _ _ i ?_) (current_setRoot _ _ _ i ?_) <;> rfl)
    | (rename_i hneg; exact absurd hb hneg)

end ReactFiberScheduler


namespace ReactFiberScheduler

/-- C6: when completeUnitOfWork ascends to a fiber with no return parent, it
throws the fatal cannot-commit-same-tree error if root.current already equals
that fiber (exC6same), and otherwise replaces root.current with the finished
work-in-progress fiber before committing and returns normally (exC6diff);
and no operation other than this commit step replaces any root's current:
scheduleDeferredWork, scheduleAnimationWork, findNextUnitOfWork and
non-flushing scheduleSynchronousWork all preserve every root's current. -/
theorem claim6_only_commit_replaces_current :
    ((getRoot exC6same 0).current = 0 ∧
     (completeUnitOfWork trivialCollaborators 3 0 false exC6same).2
       = .error .cannotCommitSameTree) ∧
    (¬((getRoot exC6diff 0).current = 0) ∧
     (getRoot (completeUnitOfWork trivialCollaborators 4 0 false exC6diff).1
        0).current = 0 ∧
     (completeUnitOfWork trivialCollaborators 4 0 false exC6diff).2 = .ok none) ∧
    (∀ (s : SchedulerState) (root i : Nat) (p : PriorityLevel),
      (getRoot (scheduleDeferredWork root p s) i).current = (getRoot s i).current ∧
      (getRoot (scheduleAnimationWork root p s) i).current
        = (getRoot s i).current ∧
      (getRoot (findNextUnitOfWork s).1 i).current = (getRoot s i).current) ∧
    (∀ (cfg : Collaborators) (fuel : Nat) (s : SchedulerState) (root i : Nat),
      s.shouldBatchUpdates = true →
      (getRoot (scheduleSynchronousWork cfg (fuel+1) root s).1 i).current
        = (getRoot s i).current) :=
  ⟨by decide, by decide,
   fun s root i p => scheduling_preserves_current s root i p,
   fun cfg fuel s root i hb => syncSchedule_preserves_current cfg fuel s root i hb⟩

/-- C6 witness: the batched-mode preservation hypothesis discharged at a
concrete input. -/
theorem claim6_witness :
    exC1b.shouldBatchUpdates = true ∧
    (getRoot (scheduleSynchronousWork trivialCollaborators 5 0 exC1b).1 0).current
      = (getRoot exC1b 0).current :=
  ⟨by decide,
   claim6_only_commit_replaces_current.2.2.2 trivialCollaborators 4 exC1b 0 0
     (by decide)⟩

end ReactFiberScheduler

namespace ReactFiberScheduler

theorem priorityLt_trans :
    ∀ a b c : PriorityLevel, a < b → b < c → a < c := by decide

theorem priorityNotLe :
    ∀ a b : PriorityLevel, ¬(a ≤ b) → b < a := by decide

theorem priorityLeLtTrans :
    ∀ a b c : PriorityLevel, a ≤ b → b < c → a < c := by decide

theorem setRoot_setRoot (r : Nat) (v1 v2 : FiberRoot) (s : SchedulerState) :
    setRoot r v2 (setRoot r v1 s) = setRoot r v2 s := by
  unfold setRoot
  simp [List.set_set]

theorem roots_length_setRoot (r : Nat) (v : FiberRoot) (s : SchedulerState) :
    (setRoot r v s).roots.length = s.roots.length := by
  simp [setRoot]

theorem fibers_setRoot (r : Nat) (v : FiberRoot) (s : SchedulerState) :
    (setRoot r v s).fibers = s.fibers := rfl

theorem fibers_applyUnschedule (ds : List Nat) :
    ∀ s : SchedulerState, (applyUnschedule ds s).fibers = s.fibers := by
  induction ds with
  | nil => intro s; rfl
  | cons d ds ih => intro s; exact (ih _).trans rfl

theorem roots_length_applyUnschedule (ds : List Nat) :
    ∀ s : SchedulerState, (applyUnschedule ds s).roots.length = s.roots.length := by
  induction ds with
  | nil => intro s; rfl
  | cons d ds ih =>
    intro s
    exact (ih _).trans (roots_length_setRoot _ _ _)

theorem current_applyUnschedule (ds : List Nat) :
    ∀ (s : SchedulerState) (i : Nat),
    (getRoot (applyUnschedule ds s) i).current = (getRoot s i).current := by
  induction ds with
  | nil => intro s i; rfl
  | cons d ds ih =>
    intro s i
    exact (ih _ i).trans (current_setRoot _ _ _ i rfl)

theorem priOf_congr {s1 s2 : SchedulerState} (hf : s1.fibers = s2.fibers)
    (hc : ∀ i, (getRoot s1 i).current = (getRoot s2 i).current) (x : Nat) :
    priOf s1 x = priOf s2 x := by
  unfold priOf getFiber
  rw [hf, hc]

theorem priOf_applyUnschedule (ds : List Nat) (s : SchedulerState) (x : Nat) :
    priOf (applyUnschedule ds s) x = priOf s x :=
  priOf_congr (fibers_applyUnschedule ds s) (current_applyUnschedule ds s) x

theorem chainFrom_roots_congr {s1 s2 : SchedulerState} (h : s1.roots = s2.roots) :
    ∀ (fuel : Nat) (o : Option Nat), chainFrom s1 fuel o = chainFrom s2 fuel o := by
  intro fuel
  induction fuel with
  | zero => intro o; cases o <;> rfl
  | succ fuel ih =>
    intro o
    cases o with
    | none => rfl
    | some r =>
      simp only [chainFrom]
      rw [getRoot_congr h r, ih]

theorem chain_setRoot_not_mem (s : SchedulerState) (r : Nat) (v : FiberRoot) :
    ∀ (fuel : Nat) (o : Option Nat) (l : List Nat),
    chainFrom s fuel o = some l → r ∉ l →
    chainFrom (setRoot r v s) fuel o = some l := by
  intro fuel
  induction fuel with
  | zero =>
    intro o l h hm
    cases o with
    | none => exact h
    | some x => exact absurd h (by simp [chainFrom])
  | succ fuel ih =>
    intro o l h hm
    cases o with
    | none => exact h
    | some x =>
      simp only [chainFrom, Option.map_eq_some'] at h
      obtain ⟨tl, htl, rfl⟩ := h
      have hrx : ¬(r = x) := by
        intro he; exact hm (he ▸ List.mem_cons_self x tl)
      simp only [chainFrom, getRoot_setRoot]
      rw [if_neg (by intro hc; exact hrx hc.1)]
      rw [ih _ tl htl (fun hmem => hm (List.mem_cons_of_mem x hmem))]
      rfl

theorem chain_applyUnschedule (ds : List Nat) :
    ∀ (s : SchedulerState) (fuel : Nat) (o : Option Nat) (l : List Nat),
    chainFrom s fuel o = some l → (∀ d ∈ ds, d ∉ l) →
    chainFrom (applyUnschedule ds s) fuel o = some l := by
  induction ds with
  | nil => intro s fuel o l h _; exact h
  | cons d ds ih =>
    intro s fuel o l h hd
    exact ih _ fuel o l
      (chain_setRoot_not_mem s d _ fuel o l h (hd d (List.mem_cons_self d ds)))
      (fun e he => hd e (List.mem_cons_of_mem d he))

theorem chain_fuel_mono (s : SchedulerState) :
    ∀ (fuel : Nat) (o : Option Nat) (l : List Nat),
    chainFrom s fuel o = some l →
    ∀ fuel2, l.length < fuel2 → chainFrom s fuel2 o = some l := by
  intro fuel
  induction fuel with
  | zero =>
    intro o l h fuel2 hlen
    cases o with
    | none =>
      cases h
      cases fuel2 with
      | zero => exact absurd hlen (by simp)
      | succ f => rfl
    | some x => exact absurd h (by simp [chainFrom])
  | succ fuel ih =>
    intro o l h fuel2 hlen
    cases o with
    | none =>
      cases h
      cases fuel2 with
      | zero => exact absurd hlen (by simp)
      | succ f => rfl
    | some x =>
      simp only [chainFrom, Option.map_eq_some'] at h
      obtain ⟨tl, htl, rfl⟩ := h
      cases fuel2 with
      | zero => exact absurd hlen (by simp)
      | succ f2 =>
        simp only [chainFrom]
        rw [ih _ tl htl f2 (by simpa using Nat.lt_of_succ_lt_succ hlen)]
        rfl

theorem applyUnschedule_mem (ds : List Nat) :
    ∀ (s : SchedulerState) (r : Nat), ds.Nodup → r ∈ ds → r < s.roots.length →
    (getRoot (applyUnschedule ds s) r).isScheduled = false ∧
    (getRoot (applyUnschedule ds s) r).nextScheduledRoot = none := by
  induction ds with
  | nil => intro s r _ hm; exact absurd hm (by simp)
  | cons d ds ih =>
    intro s r hnd hm hr
    rcases List.mem_cons.mp hm with he | hm2
    · subst he
      have hnotin : r ∉ ds := (List.nodup_cons.mp hnd).1
      have hbase :
          (getRoot (setRoot r
            {getRoot s r with isScheduled := false, nextScheduledRoot := none} s)
            r).isScheduled = false ∧
          (getRoot (setRoot r
            {getRoot s r with isScheduled := false, nextScheduledRoot := none} s)
            r).nextScheduledRoot = none := by
        rw [getRoot_setRoot, if_pos ⟨rfl, hr⟩]
        exact ⟨rfl, rfl⟩
      have hstable :
          ∀ (st : SchedulerState),
          (getRoot st r).isScheduled = false →
          (getRoot st r).nextScheduledRoot = none →
          r ∉ ds →
          (getRoot (applyUnschedule ds st) r).isScheduled = false ∧
          (getRoot (applyUnschedule ds st) r).nextScheduledRoot = none := by
        clear ih hm hnd hbase hnotin
        induction ds with
        | nil => intro st h1 h2 _; exact ⟨h1, h2⟩
        | cons e es ihs =>
          intro st h1 h2 hni
          have hne : ¬(e = r) := by
            intro he; subst he; exact hni (List.mem_cons_self e es)
          refine ihs _ ?_ ?_ (fun hmm => hni (List.mem_cons_of_mem e hmm))
          · rw [getRoot_setRoot, if_neg (fun hc => hne hc.1)]; exact h1
          · rw [getRoot_setRoot, if_neg (fun hc => hne hc.1)]; exact h2
      exact hstable _ hbase.1 hbase.2 hnotin
    · have := ih (setRoot d
        {getRoot s d with isScheduled := false, nextScheduledRoot := none} s) r
        (List.nodup_cons.mp hnd).2 hm2
        (by rw [roots_length_setRoot]; exact hr)
      exact this

theorem applyUnschedule_top (ds : List Nat) :
    ∀ (s : SchedulerState) (x y : Option Nat),
    applyUnschedule ds {s with nextScheduledRoot := x, lastScheduledRoot := y}
      = {applyUnschedule ds s with nextScheduledRoot := x, lastScheduledRoot := y} := by
  induction ds with
  | nil => intro s x y; rfl
  | cons d ds ih =>
    intro s x y
    have step :
        applyUnschedule (d :: ds)
            {s with nextScheduledRoot := x, lastScheduledRoot := y}
          = applyUnschedule ds
              {(setRoot d
                  {getRoot s d with
                    isScheduled := false, nextScheduledRoot := none} s) with
                nextScheduledRoot := x, lastScheduledRoot := y} := rfl
    rw [step]
    exact ih _ x y

theorem specPick_cons_def (pri : Nat → PriorityLevel) (x : Nat) (xs : List Nat) :
    specPick pri (x :: xs) =
      if pri x = PriorityLevel.NoWork then specPick pri xs
      else match specPick pri xs with
        | none => some x
        | some b => if pri x ≤ pri b then some x else some b := rfl

theorem specPick_mem (pri : Nat → PriorityLevel) :
    ∀ (l : List Nat) (r : Nat), specPick pri l = some r → r ∈ l := by
  intro l
  induction l with
  | nil => intro r h; exact absurd h (by simp [specPick])
  | cons x xs ih =>
    intro r h
    rw [specPick_cons_def] at h
    split at h
    · exact List.mem_cons_of_mem x (ih r h)
    · split at h
      · cases h; exact List.mem_cons_self x xs
      · rename_i b hp
        split at h
        · cases h; exact List.mem_cons_self x xs
        · cases h; exact List.mem_cons_of_mem x (ih _ hp)

theorem specPick_ne (pri : Nat → PriorityLevel) :
    ∀ (l : List Nat) (r : Nat), specPick pri l = some r →
    ¬(pri r = PriorityLevel.NoWork) := by
  intro l
  induction l with
  | nil => intro r h; exact absurd h (by simp [specPick])
  | cons x xs ih =>
    intro r h
    rw [specPick_cons_def] at h
    split at h
    · exact ih r h
    · rename_i hx
      split at h
      · cases h; exact hx
      · rename_i b hp
        split at h
        · cases h; exact hx
        · cases h; exact ih _ hp

theorem specPick_cons (pri : Nat → PriorityLevel) (h : Nat) (t : List Nat)
    (hh : ¬(pri h = PriorityLevel.NoWork)) :
    ∃ r, specPick pri (h :: t) = some r := by
  rw [specPick_cons_def, if_neg hh]
  split
  · exact ⟨h, rfl⟩
  · split
    · exact ⟨h, rfl⟩
    · rename_i b hp hle
      exact ⟨b, rfl⟩

end ReactFiberScheduler

namespace ReactFiberScheduler

theorem priorityLeNotLt :
    ∀ a b : PriorityLevel, a ≤ b → ¬(b < a) := by decide

theorem priorityNotLtLe :
    ∀ a b : PriorityLevel, ¬(a < b) → b ≤ a := by decide

theorem chainFrom_nil_inv (s : SchedulerState) (cf : Nat) (o : Option Nat)
    (h : chainFrom s cf o = some []) : o = none := by
  cases o with
  | none => rfl
  | some r =>
    cases cf with
    | zero => exact absurd h (by simp [chainFrom])
    | succ f =>
      exact absurd h (by simp [chainFrom])

theorem chainFrom_cons_inv (s : SchedulerState) (cf : Nat) (o : Option Nat)
    (x : Nat) (xs : List Nat) (h : chainFrom s cf o = some (x :: xs)) :
    o = some x ∧ ∃ cf2, cf = cf2 + 1 ∧
      chainFrom s cf2 ((getRoot s x).nextScheduledRoot) = some xs := by
  cases o with
  | none =>
    cases cf with
    | zero => exact absurd h (by simp [chainFrom])
    | succ f => exact absurd h (by simp [chainFrom])
  | some r =>
    cases cf with
    | zero => exact absurd h (by simp [chainFrom])
    | succ f =>
      simp only [chainFrom, Option.map_eq_some'] at h
      obtain ⟨tl, htl, he⟩ := h
      cases he
      exact ⟨rfl, f, rfl, htl⟩

theorem chain_suffix (s : SchedulerState) :
    ∀ (l1 : List Nat) (cf : Nat) (o : Option Nat) (l2 : List Nat),
    chainFrom s cf o = some (l1 ++ l2) →
    ∃ cf2, chainFrom s cf2 (l2.head?) = some l2 := by
  intro l1
  induction l1 with
  | nil =>
    intro cf o l2 h
    cases l2 with
    | nil => exact ⟨1, rfl⟩
    | cons x xs =>
      obtain ⟨ho, _⟩ := chainFrom_cons_inv s cf o x xs h
      refine ⟨cf, ?_⟩
      rw [show (x :: xs).head? = some x from rfl, ← ho]
      simpa using h
  | cons a l1 ih =>
    intro cf o l2 h
    obtain ⟨_, cf2, rfl, htl⟩ := chainFrom_cons_inv s cf o a (l1 ++ l2) h
    exact ih cf2 _ l2 htl

theorem nodup_bounded_length (l : List Nat) (n : Nat)
    (hn : l.Nodup) (hb : ∀ x ∈ l, x < n) : l.length ≤ n := by
  classical
  calc l.length = l.toFinset.card := (List.toFinset_card_of_nodup hn).symm
  _ ≤ (Finset.range n).card := Finset.card_le_card (fun x hx => by
        simp only [Finset.mem_range]; exact hb x (List.mem_toFinset.mp hx))
  _ = n := Finset.card_range n

theorem unscheduleLoop_succ (fuel : Nat) (s : SchedulerState) :
    unscheduleLoop (fuel+1) s =
      (match s.nextScheduledRoot with
      | none => (s, false)
      | some r =>
        if (getFiber s ((getRoot s r).current)).pendingWorkPriority
            = PriorityLevel.NoWork then
          let s1 := setRoot r {getRoot s r with isScheduled := false} s
          let next := (getRoot s1 r).nextScheduledRoot
          let s2 := setRoot r {getRoot s1 r with nextScheduledRoot := none} s1
          if s2.nextScheduledRoot = s2.lastScheduledRoot then
            let s3 := {s2 with
              nextScheduledRoot := none, lastScheduledRoot := none,
              nextPriorityLevel := PriorityLevel.NoWork}
            (s3, true)
          else
            unscheduleLoop fuel {s2 with nextScheduledRoot := next}
        else (s, false)) := rfl

theorem unscheduleLoop_none (fuel : Nat) (s : SchedulerState)
    (h : s.nextScheduledRoot = none) :
    unscheduleLoop (fuel+1) s = (s, false) := by
  rw [unscheduleLoop_succ, h]

theorem unscheduleLoop_work (fuel : Nat) (s : SchedulerState) (x : Nat)
    (h : s.nextScheduledRoot = some x)
    (hp : ¬(priOf s x = PriorityLevel.NoWork)) :
    unscheduleLoop (fuel+1) s = (s, false) := by
  rw [unscheduleLoop_succ, h]
  exact if_neg hp

theorem unscheduleLoop_exit (fuel : Nat) (s : SchedulerState) (x : Nat)
    (h : s.nextScheduledRoot = some x)
    (hp : priOf s x = PriorityLevel.NoWork)
    (hx : x < s.roots.length)
    (hlast : s.lastScheduledRoot = some x) :
    unscheduleLoop (fuel+1) s =
      ({applyUnschedule [x] s with
        nextScheduledRoot := none, lastScheduledRoot := none,
        nextPriorityLevel := PriorityLevel.NoWork}, true) := by
  rw [unscheduleLoop_succ, h]
  have hs2 : setRoot x
      {getRoot (setRoot x {getRoot s x with isScheduled := false} s) x with
        nextScheduledRoot := none}
      (setRoot x {getRoot s x with isScheduled := false} s)
    = applyUnschedule [x] s := by
    rw [getRoot_setRoot, if_pos ⟨rfl, hx⟩, setRoot_setRoot]
    rfl
  dsimp only
  split
  · split
    · rw [hs2]
    · rename_i hc
      exact absurd (show s.nextScheduledRoot = s.lastScheduledRoot from
        h.trans hlast.symm) hc
  · rename_i hc
    exact absurd hp hc

theorem unscheduleLoop_step (fuel : Nat) (s : SchedulerState) (x : Nat)
    (h : s.nextScheduledRoot = some x)
    (hp : priOf s x = PriorityLevel.NoWork)
    (hx : x < s.roots.length)
    (hlast : ¬(s.lastScheduledRoot = some x)) :
    unscheduleLoop (fuel+1) s =
      unscheduleLoop fuel
        {applyUnschedule [x] s with
          nextScheduledRoot := (getRoot s x).nextScheduledRoot} := by
  rw [unscheduleLoop_succ, h]
  have hs2 : setRoot x
      {getRoot (setRoot x {getRoot s x with isScheduled := false} s) x with
        nextScheduledRoot := none}
      (setRoot x {getRoot s x with isScheduled := false} s)
    = applyUnschedule [x] s := by
    rw [getRoot_setRoot, if_pos ⟨rfl, hx⟩, setRoot_setRoot]
    rfl
  have hnext : (getRoot (setRoot x {getRoot s x with isScheduled := false} s)
      x).nextScheduledRoot = (getRoot s x).nextScheduledRoot := by
    rw [getRoot_setRoot]
    split <;> rfl
  dsimp only
  split
  · split
    · rename_i hc
      exact absurd (show s.lastScheduledRoot = some x from
        (show s.nextScheduledRoot = s.lastScheduledRoot from hc).symm.trans h)
        hlast
    · rw [hs2, hnext]
  · rename_i hc
    exact absurd hp hc

end ReactFiberScheduler

namespace ReactFiberScheduler

theorem lsr_applyUnschedule (ds : List Nat) :
    ∀ s : SchedulerState,
    (applyUnschedule ds s).lastScheduledRoot = s.lastScheduledRoot := by
  induction ds with
  | nil => intro s; rfl
  | cons d ds ih => intro s; exact (ih _).trans rfl

theorem applyUnschedule_shift (ds : List Nat) (B : SchedulerState) (v : Option Nat) :
    applyUnschedule ds {B with nextScheduledRoot := v}
      = {applyUnschedule ds B with nextScheduledRoot := v} := by
  have h1 : applyUnschedule ds {B with nextScheduledRoot := v}
      = {applyUnschedule ds B with
          nextScheduledRoot := v, lastScheduledRoot := B.lastScheduledRoot} :=
    applyUnschedule_top ds B v B.lastScheduledRoot
  rw [h1, show B.lastScheduledRoot = (applyUnschedule ds B).lastScheduledRoot from
    (lsr_applyUnschedule ds B).symm]

theorem getLast_cons_ne (x : Nat) (xs : List Nat) (hxs : xs ≠ []) :
    (x :: xs).getLast? = xs.getLast? := by
  cases xs with
  | nil => exact absurd rfl hxs
  | cons y ys => exact List.getLast?_cons_cons

theorem lsr_ne_head (s : SchedulerState) (x : Nat) (xs : List Nat)
    (hnd : (x :: xs).Nodup) (hlast : s.lastScheduledRoot = (x :: xs).getLast?)
    (hxs : xs ≠ []) : ¬(s.lastScheduledRoot = some x) := by
  intro hc
  rw [getLast_cons_ne x xs hxs] at hlast
  have hx : x ∈ xs := List.mem_of_mem_getLast? (hc.symm.trans hlast).symm
  exact (List.nodup_cons.mp hnd).1 hx

theorem step_invariants (s : SchedulerState) (x : Nat) (xs : List Nat) (cf2 : Nat)
    (hch : chainFrom s cf2 ((getRoot s x).nextScheduledRoot) = some xs)
    (hnd : (x :: xs).Nodup)
    (hlast : s.lastScheduledRoot = (x :: xs).getLast?)
    (hb : ∀ r ∈ x :: xs, r < s.roots.length)
    (hxs : xs ≠ []) :
    chainFrom {applyUnschedule [x] s with
        nextScheduledRoot := (getRoot s x).nextScheduledRoot} cf2
      ({applyUnschedule [x] s with
        nextScheduledRoot := (getRoot s x).nextScheduledRoot}).nextScheduledRoot
      = some xs ∧
    ({applyUnschedule [x] s with
        nextScheduledRoot := (getRoot s x).nextScheduledRoot}).lastScheduledRoot
      = xs.getLast? ∧
    (∀ r ∈ xs, r <
      ({applyUnschedule [x] s with
        nextScheduledRoot := (getRoot s x).nextScheduledRoot}).roots.length) ∧
    (∀ r, priOf {applyUnschedule [x] s with
        nextScheduledRoot := (getRoot s x).nextScheduledRoot} r = priOf s r) := by
  have hxnot : x ∉ xs := (List.nodup_cons.mp hnd).1
  refine ⟨?_, ?_, ?_, ?_⟩
  · have h1 : chainFrom (applyUnschedule [x] s) cf2
        ((getRoot s x).nextScheduledRoot) = some xs :=
      chain_applyUnschedule [x] s cf2 _ xs hch
        (fun d hd => by
          rcases List.mem_singleton.mp hd with rfl
          exact hxnot)
    refine Eq.trans (chainFrom_roots_congr ?_ cf2 _) h1
    rfl
  · have h2 : ({applyUnschedule [x] s with
        nextScheduledRoot := (getRoot s x).nextScheduledRoot}).lastScheduledRoot
        = s.lastScheduledRoot := lsr_applyUnschedule [x] s
    rw [h2, hlast]
    exact getLast_cons_ne x xs hxs
  · intro r hr
    have h3 : ({applyUnschedule [x] s with
        nextScheduledRoot := (getRoot s x).nextScheduledRoot}).roots.length
        = s.roots.length := roots_length_applyUnschedule [x] s
    rw [h3]
    exact hb r (List.mem_cons_of_mem x hr)
  · intro r
    exact (priOf_congr rfl (fun i => rfl) r).trans (priOf_applyUnschedule [x] s r)

theorem unscheduleLoop_all :
    ∀ (l : List Nat) (s : SchedulerState) (cf lf : Nat),
    chainFrom s cf s.nextScheduledRoot = some l →
    l.Nodup →
    s.lastScheduledRoot = l.getLast? →
    (∀ r ∈ l, r < s.roots.length) →
    (∀ r ∈ l, priOf s r = PriorityLevel.NoWork) →
    l ≠ [] →
    l.length < lf →
    unscheduleLoop lf s =
      ({applyUnschedule l s with
        nextScheduledRoot := none, lastScheduledRoot := none,
        nextPriorityLevel := PriorityLevel.NoWork}, true) := by
  intro l
  induction l with
  | nil => intro s cf lf _ _ _ _ _ hne _; exact absurd rfl hne
  | cons x xs ih =>
    intro s cf lf hch hnd hlast hb hp _ hlen
    obtain ⟨hnsr, cf2, rfl, hch2⟩ := chainFrom_cons_inv s cf _ x xs hch
    cases lf with
    | zero => exact absurd hlen (by simp)
    | succ f =>
      have hpx : priOf s x = PriorityLevel.NoWork := hp x (List.mem_cons_self x xs)
      have hbx : x < s.roots.length := hb x (List.mem_cons_self x xs)
      cases hxs : xs with
      | nil =>
        subst hxs
        have hlx : s.lastScheduledRoot = some x := hlast
        rw [unscheduleLoop_exit f s x hnsr hpx hbx hlx]
      | cons y ys =>
        have hxsne : xs ≠ [] := by rw [hxs]; intro hc; cases hc
        rw [← hxs] at *
        have hstep := unscheduleLoop_step f s x hnsr hpx hbx
          (lsr_ne_head s x xs hnd hlast hxsne)
        rw [hstep]
        obtain ⟨i1, i2, i3, i4⟩ := step_invariants s x xs cf2 hch2 hnd hlast hb hxsne
        have hrec := ih _ cf2 f i1 (List.nodup_cons.mp hnd).2 i2 i3
          (fun r hr => (i4 r).trans (hp r (List.mem_cons_of_mem x hr)))
          hxsne (by simpa using Nat.lt_of_succ_lt_succ hlen)
        rw [hrec]
        have hsh := applyUnschedule_shift xs (applyUnschedule [x] s)
          ((getRoot s x).nextScheduledRoot)
        rw [hsh]
        rfl

theorem unscheduleLoop_partial :
    ∀ (l : List Nat) (s : SchedulerState) (cf lf : Nat),
    chainFrom s cf s.nextScheduledRoot = some l →
    l.Nodup →
    s.lastScheduledRoot = l.getLast? →
    (∀ r ∈ l, r < s.roots.length) →
    l.dropWhile (fun r => decide (priOf s r = PriorityLevel.NoWork)) ≠ [] →
    l.length < lf →
    unscheduleLoop lf s =
      ({applyUnschedule
          (l.takeWhile (fun r => decide (priOf s r = PriorityLevel.NoWork))) s with
        nextScheduledRoot :=
          (l.dropWhile (fun r => decide (priOf s r = PriorityLevel.NoWork))).head?},
       false) := by
  intro l
  induction l with
  | nil => intro s cf lf _ _ _ _ hne _; exact absurd rfl hne
  | cons x xs ih =>
    intro s cf lf hch hnd hlast hb hrest hlen
    obtain ⟨hnsr, cf2, rfl, hch2⟩ := chainFrom_cons_inv s cf _ x xs hch
    cases lf with
    | zero => exact absurd hlen (by simp)
    | succ f =>
      by_cases hpx : priOf s x = PriorityLevel.NoWork
      · have htw : (x :: xs).takeWhile
            (fun r => decide (priOf s r = PriorityLevel.NoWork))
            = x :: xs.takeWhile (fun r => decide (priOf s r = PriorityLevel.NoWork)) := by
          simp [List.takeWhile_cons, hpx]
        have hdw : (x :: xs).dropWhile
            (fun r => decide (priOf s r = PriorityLevel.NoWork))
            = xs.dropWhile (fun r => decide (priOf s r = PriorityLevel.NoWork)) := by
          simp [List.dropWhile_cons, hpx]
        have hbx : x < s.roots.length := hb x (List.mem_cons_self x xs)
        have hxsne : xs ≠ [] := by
          intro hc
          subst hc
          rw [hdw] at hrest
          exact hrest rfl
        have hstep := unscheduleLoop_step f s x hnsr hpx hbx
          (lsr_ne_head s x xs hnd hlast hxsne)
        rw [hstep]
        obtain ⟨i1, i2, i3, i4⟩ := step_invariants s x xs cf2 hch2 hnd hlast hb hxsne
        have hpe : (fun r => decide (priOf {applyUnschedule [x] s with
            nextScheduledRoot := (getRoot s x).nextScheduledRoot} r
              = PriorityLevel.NoWork))
            = (fun r => decide (priOf s r = PriorityLevel.NoWork)) := by
          funext r
          rw [i4 r]
        have hrec := ih _ cf2 f i1 (List.nodup_cons.mp hnd).2 i2 i3
          (by rw [hpe, ← hdw]; exact hrest)
          (by simpa using Nat.lt_of_succ_lt_succ hlen)
        rw [hpe] at hrec
        rw [hrec, htw, hdw]
        have hsh := applyUnschedule_shift
          (xs.takeWhile (fun r => decide (priOf s r = PriorityLevel.NoWork)))
          (applyUnschedule [x] s)
          ((getRoot s x).nextScheduledRoot)
        rw [hsh]
        rfl
      · have htw : (x :: xs).takeWhile
            (fun r => decide (priOf s r = PriorityLevel.NoWork)) = [] := by
          simp [List.takeWhile_cons, hpx]
        have hdw : (x :: xs).dropWhile
            (fun r => decide (priOf s r = PriorityLevel.NoWork)) = x :: xs := by
          simp [List.dropWhile_cons, hpx]
        rw [unscheduleLoop_work f s x hnsr hpx, htw, hdw]
        rw [show (x :: xs).head? = some x from rfl, ← hnsr]
        rfl

end ReactFiberScheduler

namespace ReactFiberScheduler

theorem priorityLeTrans :
    ∀ a b c : PriorityLevel, a ≤ b → b ≤ c → a ≤ c := by decide

theorem scanRoots_succ (s : SchedulerState) (f x : Nat) (hr : Option Nat)
    (hl : PriorityLevel) :
    scanRoots s (f+1) (some x) hr hl =
      scanRoots s f ((getRoot s x).nextScheduledRoot)
        (if priOf s x ≠ PriorityLevel.NoWork ∧
            (hl = PriorityLevel.NoWork ∨ priOf s x < hl) then
          ((some x : Option Nat), priOf s x) else (hr, hl)).1
        (if priOf s x ≠ PriorityLevel.NoWork ∧
            (hl = PriorityLevel.NoWork ∨ priOf s x < hl) then
          ((some x : Option Nat), priOf s x) else (hr, hl)).2 := rfl

theorem scanList_cons (pri : Nat → PriorityLevel) (x : Nat) (xs : List Nat)
    (acc : Option Nat × PriorityLevel) :
    scanList pri (x :: xs) acc =
      scanList pri xs
        (if pri x ≠ PriorityLevel.NoWork ∧
            (acc.2 = PriorityLevel.NoWork ∨ pri x < acc.2) then
          ((some x : Option Nat), pri x) else acc) := rfl

theorem scanRoots_eq_scanList (s : SchedulerState) :
    ∀ (l : List Nat) (cf : Nat) (o : Option Nat) (hr : Option Nat)
      (hl : PriorityLevel) (fuel : Nat),
    chainFrom s cf o = some l → l.length < fuel →
    scanRoots s fuel o hr hl = scanList (priOf s) l (hr, hl) := by
  intro l
  induction l with
  | nil =>
    intro cf o hr hl fuel h hlen
    rw [chainFrom_nil_inv s cf o h]
    cases fuel with
    | zero => exact absurd hlen (by simp)
    | succ f => rfl
  | cons x xs ih =>
    intro cf o hr hl fuel h hlen
    obtain ⟨rfl, cf2, rfl, hch2⟩ := chainFrom_cons_inv s cf o x xs h
    cases fuel with
    | zero => exact absurd hlen (by simp)
    | succ f =>
      rw [scanRoots_succ, scanList_cons]
      dsimp only
      by_cases hc : priOf s x ≠ PriorityLevel.NoWork ∧
          (hl = PriorityLevel.NoWork ∨ priOf s x < hl)
      · rw [if_pos hc]
        exact ih cf2 _ (some x) (priOf s x) f hch2
          (by simpa using Nat.lt_of_succ_lt_succ hlen)
      · rw [if_neg hc]
        exact ih cf2 _ hr hl f hch2
          (by simpa using Nat.lt_of_succ_lt_succ hlen)

theorem scanList_acc (pri : Nat → PriorityLevel) :
    ∀ (l : List Nat) (b : Nat), ¬(pri b = PriorityLevel.NoWork) →
    scanList pri l ((some b : Option Nat), pri b) =
      (match specPick pri l with
      | none => ((some b : Option Nat), pri b)
      | some r =>
        if pri r < pri b then ((some r : Option Nat), pri r)
        else ((some b : Option Nat), pri b)) := by
  intro l
  induction l with
  | nil => intro b _; rfl
  | cons x xs ih =>
    intro b hb
    rw [scanList_cons, specPick_cons_def]
    dsimp only
    by_cases hx : pri x = PriorityLevel.NoWork
    · rw [if_neg (by intro hc; exact hc.1 hx), if_pos hx]
      exact ih b hb
    · by_cases hlt : pri x < pri b
      · rw [if_pos ⟨hx, Or.inr hlt⟩, if_neg hx]
        rw [ih x hx]
        cases hp : specPick pri xs with
        | none =>
          dsimp only
          rw [if_pos hlt]
        | some r =>
          dsimp only
          by_cases hle : pri x ≤ pri r
          · rw [if_pos hle, if_neg (priorityLeNotLt _ _ hle)]
            dsimp only
            rw [if_pos hlt]
          · rw [if_neg hle, if_pos (priorityNotLe _ _ hle)]
            dsimp only
            rw [if_pos (priorityLt_trans _ _ _ (priorityNotLe _ _ hle) hlt)]
      · rw [if_neg (by
          intro hc
          rcases hc.2 with h2 | h2
          · exact hb h2
          · exact hlt h2), if_neg hx]
        rw [ih b hb]
        have hble : pri b ≤ pri x := priorityNotLtLe _ _ hlt
        cases hp : specPick pri xs with
        | none =>
          dsimp only
          rw [if_neg hlt]
        | some r =>
          dsimp only
          by_cases hle : pri x ≤ pri r
          · rw [if_pos hle,
              if_neg (priorityLeNotLt _ _ (priorityLeTrans _ _ _ hble hle))]
            dsimp only
            rw [if_neg hlt]
          · rw [if_neg hle]

theorem scanList_none (pri : Nat → PriorityLevel) :
    ∀ (l : List Nat),
    scanList pri l ((none : Option Nat), PriorityLevel.NoWork) =
      (match specPick pri l with
      | none => ((none : Option Nat), PriorityLevel.NoWork)
      | some r => ((some r : Option Nat), pri r)) := by
  intro l
  induction l with
  | nil => rfl
  | cons x xs ih =>
    rw [scanList_cons, specPick_cons_def]
    dsimp only
    by_cases hx : pri x = PriorityLevel.NoWork
    · rw [if_neg (by intro hc; exact hc.1 hx), if_pos hx]
      exact ih
    · rw [if_pos ⟨hx, Or.inl rfl⟩, if_neg hx]
      rw [scanList_acc pri xs x hx]
      cases hp : specPick pri xs with
      | none => dsimp only
      | some r =>
        dsimp only
        by_cases hle : pri x ≤ pri r
        · rw [if_pos hle, if_neg (priorityLeNotLt _ _ hle)]
        · rw [if_neg hle, if_pos (priorityNotLe _ _ hle)]

end ReactFiberScheduler

namespace ReactFiberScheduler

theorem npl_cloneFiber (f : Nat) (p : PriorityLevel) (s : SchedulerState) :
    (cloneFiber f p s).1.nextPriorityLevel = s.nextPriorityLevel := by
  unfold cloneFiber
  dsimp only
  split <;> rfl

theorem nuow_cloneFiber (f : Nat) (p : PriorityLevel) (s : SchedulerState) :
    (cloneFiber f p s).1.nextScheduledRoot = s.nextScheduledRoot := by
  unfold cloneFiber
  dsimp only
  split <;> rfl

theorem getFiber_append (s : SchedulerState) (cl : Fiber) (j : Nat)
    (hj : j < s.fibers.length) :
    getFiber {s with fibers := s.fibers ++ [cl]} j = getFiber s j := by
  unfold getFiber
  dsimp only
  rw [List.getD_eq_getElem?_getD, List.getD_eq_getElem?_getD,
    List.getElem?_append_left hj]

theorem getFiber_append_self (s : SchedulerState) (cl : Fiber) :
    getFiber {s with fibers := s.fibers ++ [cl]} s.fibers.length = cl := by
  unfold getFiber
  dsimp only
  rw [List.getD_eq_getElem?_getD, List.getElem?_concat_length]
  rfl

theorem cloneFiber_isClone (f : Nat) (p : PriorityLevel) (s : SchedulerState)
    (hf : f < s.fibers.length)
    (halt : ∀ a, (getFiber s f).alternate = some a →
      a < s.fibers.length ∧ ¬(a = f)) :
    isCloneOf (cloneFiber f p s).1 (cloneFiber f p s).2 f p := by
  unfold cloneFiber
  dsimp only
  cases ha : (getFiber s f).alternate with
  | some alt =>
    obtain ⟨haf, hane⟩ := halt alt ha
    dsimp only
    refine ⟨?_, ?_, ?_⟩
    · rw [getFiber_setFiber, if_pos ⟨rfl, haf⟩]
    · rw [getFiber_setFiber, if_neg (fun hc => hane hc.1)]
      exact ha
    · rw [getFiber_setFiber, if_pos ⟨rfl, haf⟩]
  | none =>
    dsimp only
    refine ⟨?_, ?_, ?_⟩
    · rw [getFiber_setFiber, if_neg (fun hc => Nat.ne_of_lt hf hc.1)]
      rw [getFiber_append_self]
    · rw [getFiber_setFiber,
        if_pos ⟨rfl, by dsimp only; simp only [List.length_append]; omega⟩]
    · rw [getFiber_setFiber, if_neg (fun hc => Nat.ne_of_lt hf hc.1)]
      rw [getFiber_append_self]

end ReactFiberScheduler

namespace ReactFiberScheduler

theorem getFiber_congr {s1 s2 : SchedulerState} (h : s1.fibers = s2.fibers)
    (i : Nat) : getFiber s1 i = getFiber s2 i := by
  unfold getFiber; rw [h]

theorem wfRegistry_spec (s : SchedulerState) (l : List Nat)
    (hchain : chainFrom s (s.roots.length + 1) s.nextScheduledRoot = some l)
    (hwf : wfRegistry s = true) :
    l.Nodup ∧ (∀ r ∈ l, rootOk s r = true) ∧
    s.lastScheduledRoot = l.getLast? := by
  unfold wfRegistry at hwf
  rw [hchain] at hwf
  simp only [Bool.and_eq_true, decide_eq_true_eq, List.all_eq_true,
    beq_iff_eq] at hwf
  exact ⟨hwf.1.1, hwf.1.2, hwf.2⟩

theorem rootOk_spec (s : SchedulerState) (r : Nat) (h : rootOk s r = true) :
    r < s.roots.length ∧ (getRoot s r).current < s.fibers.length ∧
    (∀ a, (getFiber s ((getRoot s r).current)).alternate = some a →
      a < s.fibers.length ∧ ¬(a = (getRoot s r).current)) := by
  unfold rootOk at h
  cases halt : (getFiber s ((getRoot s r).current)).alternate with
  | none =>
    rw [halt] at h
    simp only [Bool.and_eq_true, decide_eq_true_eq, Bool.and_true] at h
    refine ⟨h.1, h.2, ?_⟩
    intro a ha
    cases ha
  | some a =>
    rw [halt] at h
    simp only [Bool.and_eq_true, decide_eq_true_eq] at h
    refine ⟨h.1.1, h.1.2, ?_⟩
    intro b hb
    cases hb
    exact h.2

end ReactFiberScheduler

namespace ReactFiberScheduler

theorem findNextUnitOfWork_empty (s : SchedulerState)
    (hnsr : s.nextScheduledRoot = none) :
    findNextUnitOfWork s =
      ({s with nextPriorityLevel := PriorityLevel.NoWork}, none) := by
  unfold findNextUnitOfWork
  rw [unscheduleLoop_none s.roots.length s hnsr]
  dsimp only
  rw [hnsr]
  rfl

theorem findNextUnitOfWork_all (s : SchedulerState) (ds : List Nat)
    (hgc : unscheduleLoop (s.roots.length + 1) s
      = ({applyUnschedule ds s with
            nextScheduledRoot := none,
            lastScheduledRoot := none,
            nextPriorityLevel := PriorityLevel.NoWork}, true)) :
    findNextUnitOfWork s =
      ({applyUnschedule ds s with
          nextScheduledRoot := none,
          lastScheduledRoot := none,
          nextPriorityLevel := PriorityLevel.NoWork}, none) := by
  unfold findNextUnitOfWork
  rw [hgc]
  rfl

theorem findNextUnitOfWork_partial (s : SchedulerState) (ds : List Nat)
    (hh rr : Nat)
    (hgc : unscheduleLoop (s.roots.length + 1) s
      = ({applyUnschedule ds s with nextScheduledRoot := some hh}, false))
    (hscan : scanRoots {applyUnschedule ds s with nextScheduledRoot := some hh}
        ((applyUnschedule ds s).roots.length + 1) (some hh) none
        PriorityLevel.NoWork
      = (some rr, priOf s rr)) :
    findNextUnitOfWork s =
      ((cloneFiber ((getRoot {applyUnschedule ds s with
            nextScheduledRoot := some hh,
            nextPriorityLevel := priOf s rr} rr).current) (priOf s rr)
        {applyUnschedule ds s with
            nextScheduledRoot := some hh,
            nextPriorityLevel := priOf s rr}).1,
       some (cloneFiber ((getRoot {applyUnschedule ds s with
            nextScheduledRoot := some hh,
            nextPriorityLevel := priOf s rr} rr).current) (priOf s rr)
        {applyUnschedule ds s with
            nextScheduledRoot := some hh,
            nextPriorityLevel := priOf s rr}).2) := by
  unfold findNextUnitOfWork
  rw [hgc]
  dsimp only
  rw [hscan]
  rfl

end ReactFiberScheduler

namespace ReactFiberScheduler

/-- C3: `findNextUnitOfWork` first detaches every leading registry root whose
current fiber has `pendingWorkPriority = NoWork` (clearing its `isScheduled`
flag and its `nextScheduledRoot` link), then among the remaining chained roots
selects the one with the smallest (most urgent) `pendingWorkPriority`, ties
broken by registry order (the earlier root wins, as captured by `specPick`),
sets `nextPriorityLevel` to that priority and returns a clone of that root's
current fiber (paired with it through the `alternate` edges and carrying the
picked priority); it returns null and sets `nextPriorityLevel = NoWork` when
no root has pending work. -/
theorem claim3_find_next_unit_of_work (s : SchedulerState) (l : List Nat)
    (hwf : wfRegistry s = true)
    (hchain : chainFrom s (s.roots.length + 1) s.nextScheduledRoot = some l) :
    (∀ r ∈ l.takeWhile (fun x => decide (priOf s x = PriorityLevel.NoWork)),
      (getRoot (findNextUnitOfWork s).1 r).isScheduled = false ∧
      (getRoot (findNextUnitOfWork s).1 r).nextScheduledRoot = none) ∧
    (match specPick (priOf s)
        (l.dropWhile (fun x => decide (priOf s x = PriorityLevel.NoWork))) with
     | none => (findNextUnitOfWork s).2 = none ∧
        (findNextUnitOfWork s).1.nextPriorityLevel = PriorityLevel.NoWork
     | some r => (findNextUnitOfWork s).1.nextPriorityLevel = priOf s r ∧
        ∃ c, (findNextUnitOfWork s).2 = some c ∧
          isCloneOf (findNextUnitOfWork s).1 c ((getRoot s r).current)
            (priOf s r)) := by
  obtain ⟨hnd, hok, hlast⟩ := wfRegistry_spec s l hchain hwf
  have hb : ∀ r ∈ l, r < s.roots.length := fun r hr =>
    (rootOk_spec s r (hok r hr)).1
  have hlen : l.length ≤ s.roots.length := nodup_bounded_length l _ hnd hb
  by_cases hlnil : l = []
  · subst hlnil
    have hnsr : s.nextScheduledRoot = none := chainFrom_nil_inv s _ _ hchain
    have hout := findNextUnitOfWork_empty s hnsr
    refine ⟨?_, ?_⟩
    · intro r hr
      simp at hr
    · show (findNextUnitOfWork s).2 = none ∧
        (findNextUnitOfWork s).1.nextPriorityLevel = PriorityLevel.NoWork
      rw [hout]
      exact ⟨rfl, rfl⟩
  · cases hrest : l.dropWhile (fun x => decide (priOf s x = PriorityLevel.NoWork)) with
    | nil =>
      have hallp : ∀ x ∈ l,
          (fun x => decide (priOf s x = PriorityLevel.NoWork)) x :=
        List.dropWhile_eq_nil_iff.mp hrest
      have hall : ∀ x ∈ l, priOf s x = PriorityLevel.NoWork := fun x hx =>
        of_decide_eq_true (hallp x hx)
      have hgc := unscheduleLoop_all l s (s.roots.length + 1)
        (s.roots.length + 1) hchain hnd hlast hb hall hlnil
        (Nat.lt_succ_of_le hlen)
      have hout := findNextUnitOfWork_all s l hgc
      have htake : l.takeWhile
          (fun x => decide (priOf s x = PriorityLevel.NoWork)) = l :=
        List.takeWhile_eq_self_iff.mpr hallp
      refine ⟨?_, ?_⟩
      · rw [htake, hout]
        intro r hr
        exact applyUnschedule_mem l s r hnd hr (hb r hr)
      · show (findNextUnitOfWork s).2 = none ∧
          (findNextUnitOfWork s).1.nextPriorityLevel = PriorityLevel.NoWork
        rw [hout]
        exact ⟨rfl, rfl⟩
    | cons hh tt =>
      have hrestne : l.dropWhile
          (fun x => decide (priOf s x = PriorityLevel.NoWork)) ≠ [] := by
        rw [hrest]
        intro hc
        cases hc
      have hgc := unscheduleLoop_partial l s (s.roots.length + 1)
        (s.roots.length + 1) hchain hnd hlast hb hrestne
        (Nat.lt_succ_of_le hlen)
      rw [hrest] at hgc
      simp only [List.head?_cons] at hgc
      have hph : ¬(priOf s hh = PriorityLevel.NoWork) := by
        have hd := List.head?_dropWhile_not
          (fun x => decide (priOf s x = PriorityLevel.NoWork)) l
        rw [hrest] at hd
        simp only [List.head?_cons] at hd
        exact of_decide_eq_false hd
      have hsplit : l.takeWhile
            (fun x => decide (priOf s x = PriorityLevel.NoWork))
          ++ l.dropWhile (fun x => decide (priOf s x = PriorityLevel.NoWork))
          = l := List.takeWhile_append_dropWhile _ _
      obtain ⟨cf2, hchrest⟩ := chain_suffix s
        (l.takeWhile (fun x => decide (priOf s x = PriorityLevel.NoWork)))
        (s.roots.length + 1) s.nextScheduledRoot
        (l.dropWhile (fun x => decide (priOf s x = PriorityLevel.NoWork)))
        (by rw [hsplit]; exact hchain)
      rw [hrest] at hchrest
      simp only [List.head?_cons] at hchrest
      have hdisj : ∀ d ∈ l.takeWhile
          (fun x => decide (priOf s x = PriorityLevel.NoWork)),
          d ∉ hh :: tt := by
        intro d hd hmem
        have hnd2 : (l.takeWhile
              (fun x => decide (priOf s x = PriorityLevel.NoWork))
            ++ l.dropWhile
              (fun x => decide (priOf s x = PriorityLevel.NoWork))).Nodup := by
          rw [hsplit]
          exact hnd
        have hdj := (List.nodup_append.mp hnd2).2.2
        refine hdj hd ?_
        rw [hrest]
        exact hmem
      have hchrest2 : chainFrom
          {applyUnschedule (l.takeWhile
            (fun x => decide (priOf s x = PriorityLevel.NoWork))) s with
            nextScheduledRoot := some hh} cf2 (some hh) = some (hh :: tt) := by
        refine Eq.trans (chainFrom_roots_congr ?_ cf2 (some hh))
          (chain_applyUnschedule _ s cf2 (some hh) (hh :: tt) hchrest hdisj)
        rfl
      have hpe : priOf {applyUnschedule (l.takeWhile
            (fun x => decide (priOf s x = PriorityLevel.NoWork))) s with
            nextScheduledRoot := some hh} = priOf s := by
        funext r
        refine Eq.trans (priOf_congr ?_ ?_ r)
          (priOf_applyUnschedule (l.takeWhile
            (fun x => decide (priOf s x = PriorityLevel.NoWork))) s r)
        · rfl
        · intro i
          rfl
      obtain ⟨rr, hrr⟩ := specPick_cons (priOf s) hh tt hph
      have hrrmem : rr ∈ l := by
        have h1 : rr ∈ hh :: tt := specPick_mem (priOf s) (hh :: tt) rr hrr
        have h2 : rr ∈ l.dropWhile
            (fun x => decide (priOf s x = PriorityLevel.NoWork)) := by
          rw [hrest]
          exact h1
        exact (List.dropWhile_sublist _).mem h2
      obtain ⟨hrb, hrcur, hralt⟩ := rootOk_spec s rr (hok rr hrrmem)
      have hscan : scanRoots {applyUnschedule (l.takeWhile
            (fun x => decide (priOf s x = PriorityLevel.NoWork))) s with
            nextScheduledRoot := some hh}
          ((applyUnschedule (l.takeWhile
            (fun x => decide (priOf s x = PriorityLevel.NoWork))) s).roots.length
            + 1)
          (some hh) none PriorityLevel.NoWork = (some rr, priOf s rr) := by
        rw [scanRoots_eq_scanList _ (hh :: tt) cf2 (some hh) none
          PriorityLevel.NoWork _ hchrest2 ?lenok]
        case lenok =>
          rw [roots_length_applyUnschedule]
          have hle2 : (hh :: tt).length ≤ l.length := by
            rw [← hrest]
            exact (List.dropWhile_sublist _).length_le
          exact Nat.lt_succ_of_le (Nat.le_trans hle2 hlen)
        rw [hpe, scanList_none, hrr]
      have hout := findNextUnitOfWork_partial s
        (l.takeWhile (fun x => decide (priOf s x = PriorityLevel.NoWork)))
        hh rr hgc hscan
      have hfib : ({applyUnschedule (l.takeWhile
            (fun x => decide (priOf s x = PriorityLevel.NoWork))) s with
            nextScheduledRoot := some hh,
            nextPriorityLevel := priOf s rr} : SchedulerState).fibers
          = s.fibers := fibers_applyUnschedule _ s
      have hcur : (getRoot {applyUnschedule (l.takeWhile
            (fun x => decide (priOf s x = PriorityLevel.NoWork))) s with
            nextScheduledRoot := some hh,
            nextPriorityLevel := priOf s rr} rr).current
          = (getRoot s rr).current := by
        refine Eq.trans (congrArg FiberRoot.current (getRoot_congr ?_ rr))
          (current_applyUnschedule (l.takeWhile
            (fun x => decide (priOf s x = PriorityLevel.NoWork))) s rr)
        rfl
      refine ⟨?_, ?_⟩
      · intro r hr
        have hmem := applyUnschedule_mem
          (l.takeWhile (fun x => decide (priOf s x = PriorityLevel.NoWork)))
          s r (List.Nodup.sublist (List.takeWhile_sublist _) hnd) hr
          (hb r ((List.takeWhile_sublist _).mem hr))
        rw [hout]
        have hroots : (cloneFiber ((getRoot {applyUnschedule (l.takeWhile
              (fun x => decide (priOf s x = PriorityLevel.NoWork))) s with
              nextScheduledRoot := some hh,
              nextPriorityLevel := priOf s rr} rr).current) (priOf s rr)
            {applyUnschedule (l.takeWhile
              (fun x => decide (priOf s x = PriorityLevel.NoWork))) s with
              nextScheduledRoot := some hh,
              nextPriorityLevel := priOf s rr}).1.roots
            = (applyUnschedule (l.takeWhile
              (fun x => decide (priOf s x = PriorityLevel.NoWork))) s).roots :=
          roots_cloneFiber _ _ _
        exact ⟨Eq.trans (congrArg FiberRoot.isScheduled
            (getRoot_congr hroots r)) hmem.1,
          Eq.trans (congrArg FiberRoot.nextScheduledRoot
            (getRoot_congr hroots r)) hmem.2⟩
      · rw [hrr]
        show (findNextUnitOfWork s).1.nextPriorityLevel = priOf s rr ∧
          ∃ c, (findNextUnitOfWork s).2 = some c ∧
            isCloneOf (findNextUnitOfWork s).1 c ((getRoot s rr).current)
              (priOf s rr)
        rw [hout]
        refine ⟨npl_cloneFiber _ _ _, _, rfl, ?_⟩
        have hclone := cloneFiber_isClone ((getRoot {applyUnschedule
            (l.takeWhile (fun x => decide (priOf s x = PriorityLevel.NoWork)))
            s with
            nextScheduledRoot := some hh,
            nextPriorityLevel := priOf s rr} rr).current) (priOf s rr)
          {applyUnschedule (l.takeWhile
            (fun x => decide (priOf s x = PriorityLevel.NoWork))) s with
            nextScheduledRoot := some hh,
            nextPriorityLevel := priOf s rr}
          (by rw [hfib, hcur]; exact hrcur)
          (by
            intro a ha
            have hgf : getFiber {applyUnschedule (l.takeWhile
                (fun x => decide (priOf s x = PriorityLevel.NoWork))) s with
                nextScheduledRoot := some hh,
                nextPriorityLevel := priOf s rr}
                ((getRoot {applyUnschedule (l.takeWhile
                  (fun x => decide (priOf s x = PriorityLevel.NoWork))) s with
                  nextScheduledRoot := some hh,
                  nextPriorityLevel := priOf s rr} rr).current)
                = getFiber s ((getRoot s rr).current) :=
              Eq.trans (getFiber_congr hfib _) (congrArg (getFiber s) hcur)
            rw [hgf] at ha
            obtain ⟨h1, h2⟩ := hralt a ha
            refine ⟨?_, ?_⟩
            · rw [hfib]
              exact h1
            · rw [hcur]
              exact h2)
        rw [← hcur]
        exact hclone

end ReactFiberScheduler

namespace ReactFiberScheduler

/-- Witness for C3 on a concrete two-root registry: the hypotheses hold by
evaluation and the claim applies. -/
theorem claim3_witness :
    wfRegistry exC3 = true ∧
    chainFrom exC3 (exC3.roots.length + 1) exC3.nextScheduledRoot
      = some [0, 1] ∧
    ((∀ r ∈ List.takeWhile
        (fun x => decide (priOf exC3 x = PriorityLevel.NoWork)) [0, 1],
      (getRoot (findNextUnitOfWork exC3).1 r).isScheduled = false ∧
      (getRoot (findNextUnitOfWork exC3).1 r).nextScheduledRoot = none) ∧
    (match specPick (priOf exC3)
        (List.dropWhile
          (fun x => decide (priOf exC3 x = PriorityLevel.NoWork)) [0, 1]) with
     | none => (findNextUnitOfWork exC3).2 = none ∧
        (findNextUnitOfWork exC3).1.nextPriorityLevel = PriorityLevel.NoWork
     | some r => (findNextUnitOfWork exC3).1.nextPriorityLevel = priOf exC3 r ∧
        ∃ c, (findNextUnitOfWork exC3).2 = some c ∧
          isCloneOf (findNextUnitOfWork exC3).1 c ((getRoot exC3 r).current)
            (priOf exC3 r))) :=
  ⟨by decide, by decide,
    claim3_find_next_unit_of_work exC3 [0, 1] (by decide) (by decide)⟩

end ReactFiberScheduler
